import Mathlib

/-!
# Verification of the @cldmv/wisp loader

Shallow embedding of the two source files of the repository:

* `src/wisp.mjs` — the tiered JSON loader (`wisp`, `wispSync`, `deepClone`);
* `src/lib/resolve-from-caller.mjs` — the caller-aware location resolver
  (`getStack`, `pickPrimaryBaseFile`, `pickFallbackBaseFile`, `resolveWith`,
  `resolvePathFromCaller`, `resolveUrlFromCaller`, `toFsPath`).

JSON documents are modelled as an inductive `Json` value (file text is
abstracted to its parse result: `Env.files` maps a URL href to the parsed
document, `none` standing for a missing file or invalid JSON, which the code
treats identically — both land in the same catch block).

Object identity and the ES module-registry cache are modelled with an explicit
heap: `St.heap` is a list of allocated JSON cells addressed by index, and
`St.reg` is the module registry, mapping an imported URL href to the heap cell
holding that module's default export.  A loader returns the heap index of the
value it hands to the caller; two calls alias (mutation of one is visible to
the other) exactly when they return the same index.  `deepClone` allocates a
fresh cell, mirroring `structuredClone` / JSON round-trip in the source.
-/

/-- A JSON value (the parse result of a JSON document). -/
inductive Json where
  | null
  | bool (b : Bool)
  | num (n : Int)
  | str (s : String)
  | arr (xs : List Json)
  | obj (kvs : List (String × Json))
deriving Repr

/-- Whether a JSON value is the JSON null (models JS nullish for module
default exports, which for JSON modules are never `undefined`). -/
def Json.isNull : Json → Bool
  | .null => true
  | _ => false

/-- Heap-and-registry state.  `heap` holds every allocated document cell;
`reg` is the ES module-registry cache: imported href ↦ heap cell of the
module's default export. -/
structure St where
  heap : List Json := []
  reg : List (String × Nat) := []
deriving Repr

/-- Allocate a fresh heap cell holding `v`; returns its index. -/
def allocCell (st : St) (v : Json) : Nat × St :=
  (st.heap.length, ⟨st.heap ++ [v], st.reg⟩)

/-- Embeds `deepClone` of `src/wisp.mjs` (structuredClone, or JSON
stringify/parse round trip): the value is copied into a freshly allocated,
independently owned cell. -/
def deepClone (st : St) (v : Json) : Nat × St :=
  allocCell st v

/-- A loader reference: either an already-constructed `URL` instance or a
string (the source coerces every non-URL input with `String(input)`). -/
inductive Input where
  | url (href : String)
  | str (s : String)
deriving Repr

/-- The options bag of `wisp` / `wispSync`.  `validate` models a JS function
that either returns (`none`) or throws with message `m` (`some m`);
`reviver` models a `JSON.parse` reviver that always returns a value (the
member-deleting `undefined` case is outside this model). -/
structure Opts where
  base : Option String := none
  validate : Option (Json → Option String) := none
  reviver : Option (String → Json → Json) := none
  type : String := "json"
  fallback : Option Input := none

/-- A thrown JS error. -/
inductive Err where
  | typeError (msg : String)
  | error (msg : String)
  | fuelOut
deriving DecidableEq, Repr

/-- The host environment a load runs against: the resolver outcome for
relative references, the parsed content of each file href, the message of the
read/parse exception for a failing href, whether the runtime accepts the
`with`- and `assert`-style import syntaxes for JSON, and the module system's
answer for non-JSON declared types under each syntax. -/
structure Env where
  resolveUrl : String → String
  files : String → Option Json
  failMsg : String → String
  withOk : Bool
  assertOk : Bool
  withNonJson : String → String → Option Json
  assertNonJson : String → String → Option Json

/-- Kernel-computable model of `String.startsWith` (structural recursion
over the character lists, so concrete instances evaluate). -/
def strStarts (pre s : String) : Bool :=
  pre.data.isPrefixOf s.data

/-- Drop the first `n` characters of a string. -/
def strDrop (n : Nat) (s : String) : String :=
  String.mk (s.data.drop n)

/-- The characters strictly before the last slash of a string, `none` when
it has no slash (structural model of `revPosOf` + `extract`). -/
def beforeLastSlash : List Char -> Option (List Char)
  | [] => none
  | c :: rest =>
    match beforeLastSlash rest with
    | some tail => some (c :: tail)
    | none => if c == '/' then some [] else none

/-- Split a character list on slashes (model of `String.splitOn "/"`). -/
def splitSlash (cur : List Char) : List Char -> List String
  | [] => [String.mk cur.reverse]
  | c :: rest =>
    if c == '/' then String.mk cur.reverse :: splitSlash [] rest
    else splitSlash (c :: cur) rest

/-- Unix model of `path.isAbsolute`. -/
def isAbsolutePath (s : String) : Bool :=
  strStarts "/" s

/-- Unix model of `url.pathToFileURL(..).href`. -/
def pathToFileURL (p : String) : String :=
  "file://" ++ p

/-- Model of `new URL(s)` on an absolute locator string: every locator in
this development is a `file://` URL; anything else fails to parse. -/
def parseUrl (s : String) : Option String :=
  if strStarts "file://" s then some s else none

/-- Model of `new URL(rel, base)` for a relative `rel`: the base up to its
last slash, then the relative reference. -/
def urlJoin (rel base : String) : String :=
  match beforeLastSlash base.data with
  | some cs => String.mk cs ++ "/" ++ rel
  | none => base ++ "/" ++ rel

/-- The fixed identifying message tag of the library. -/
def wispTag : String := "@cldmv/wisp: "

/-- Reviver application, as `JSON.parse` does it: bottom-up over the tree,
each member passed through the reviver keyed by its property name or array
index. -/
def reviveVal (r : String → Json → Json) : Json → Json
  | .null => .null
  | .bool b => .bool b
  | .num n => .num n
  | .str s => .str s
  | .arr xs => .arr (reviveArr r 0 xs)
  | .obj kvs => .obj (reviveObj r kvs)
where
  /-- Revive the elements of an array, keys being decimal indices. -/
  reviveArr (r : String → Json → Json) (i : Nat) : List Json → List Json
    | [] => []
    | v :: rest => r (toString i) (reviveVal r v) :: reviveArr r (i + 1) rest
  /-- Revive the members of an object. -/
  reviveObj (r : String → Json → Json) : List (String × Json) → List (String × Json)
    | [] => []
    | (k, v) :: rest => (k, r k (reviveVal r v)) :: reviveObj r rest

/-- `JSON.parse(text, reviver)` on a document whose plain parse is `v`:
revive the tree, then pass the root through the reviver under the key
`""`. -/
def reviveTop (r : String → Json → Json) (v : Json) : Json :=
  r "" (reviveVal r v)

/-- The value the load pipeline works with once the plain document `v` is in
hand: revived when a reviver was supplied (both the raw-read tier's
`JSON.parse(txt, reviver)` and the import tiers'
`JSON.parse(JSON.stringify(val), reviver)` substitute members identically),
otherwise `v` itself. -/
def reviveW (opts : Opts) (v : Json) : Json :=
  match opts.reviver with
  | some r => reviveTop r v
  | none => v

/-- Embeds the shared URL prologue of `wisp` and `wispSync`
(`src/wisp.mjs` lines 74–82 and 158–166, which are identical): a `URL`
instance is used as-is; a `file://` string is parsed; an absolute path is
converted with `pathToFileURL`; a relative string joins against a truthy
`base`, and only otherwise consults `resolveUrlFromCaller`. -/
def computeUrl (env : Env) (input : Input) (opts : Opts) : Except Err String :=
  match input with
  | .url h => .ok h
  | .str s =>
    if strStarts "file://" s then
      match parseUrl s with
      | some u => .ok u
      | none => .error (.typeError "Invalid URL")
    else if isAbsolutePath s then .ok (pathToFileURL s)
    else
      match opts.base with
      | some b =>
        if b ≠ "" then
          match parseUrl b with
          | some ub => .ok (urlJoin s ub)
          | none => .error (.typeError "Invalid URL")
        else .ok (env.resolveUrl s)
      | none => .ok (env.resolveUrl s)

/-- One dynamic `import(url.href, ...)` against the module system. `ok` is
the runtime's support for the syntax used; a cached module is served from the
registry, a fresh one is instantiated from the file (for the JSON type) or
from the module system's non-JSON answer, allocated, and recorded in the
registry.  `none` means the import failed (syntax unsupported, module or
attribute type unsupported, file missing or unparsable). -/
def importVia (ok : Bool) (nonJson : String → String → Option Json) (env : Env)
    (href ty : String) (st : St) : Option (Nat × St) :=
  if ok then
    match st.reg.lookup href with
    | some i => some (i, st)
    | none =>
      match (if ty == "json" then env.files href else nonJson href ty) with
      | some v =>
        let (i, st₁) := allocCell st v
        some (i, ⟨st₁.heap, (href, i) :: st₁.reg⟩)
      | none => none
  else none

/-- The module namespace object, as observed when the default export is
nullish and `mod?.default ?? mod` falls back to `mod` itself. -/
def nsObj (v : Json) : Json :=
  .obj [("default", v)]

/-- One import tier of `wisp` (lines 84–97 resp. 99–112 of `src/wisp.mjs`):
on import success, with neither reviver nor validate the module's default
export is returned directly (the registry cell itself — no clone); otherwise
the default is deep-cloned, re-parsed through the reviver when supplied, and
validated; a validation throw (already wrapped with the library tag) is
swallowed by the tier's blanket `catch`, as is the `structuredClone` failure
on a module namespace (nullish default).  Returns the result cell when the
tier returned, `none` when control falls through to the next tier. -/
def tierImport (ok : Bool) (nonJson : String → String → Option Json) (env : Env)
    (href : String) (opts : Opts) (st : St) : Option Nat × St :=
  match importVia ok nonJson env href opts.type st with
  | none => (none, st)
  | some (i, st₁) =>
    let v := st₁.heap.getD i .null
    if opts.reviver.isNone && opts.validate.isNone then
      if v.isNull then
        let (j, st₂) := allocCell st₁ (nsObj v)
        (some j, st₂)
      else (some i, st₁)
    else if v.isNull then (none, st₁)
    else
      let (j, st₂) := deepClone st₁ v
      let (k, st₃) := if opts.reviver.isSome then deepClone st₂ (reviveW opts v) else (j, st₂)
      match opts.validate with
      | some f =>
        match f (reviveW opts v) with
        | some _ => (none, st₁)
        | none => (some k, st₃)
      | none => (some k, st₃)

/-- The raw-read pipeline shared verbatim by `wisp`'s third tier (lines
115–125) and the body of `wispSync` (lines 168–178): read and parse the file
with the reviver, deep-clone, then validate; the error value is the message
of the exception the enclosing `catch (e)` receives — the read/parse failure
message, or the tag-wrapped validation message. -/
def tierRaw (env : Env) (href : String) (opts : Opts) (st : St) :
    Except String (Nat × St) :=
  match env.files href with
  | none => .error (env.failMsg href)
  | some v =>
    let w := reviveW opts v
    let (j, st₁) := deepClone st w
    match opts.validate with
    | some f =>
      match f w with
      | some m => .error (wispTag ++ m)
      | none => .ok (j, st₁)
    | none => .ok (j, st₁)

/-- Embeds `wisp` of `src/wisp.mjs`: URL prologue, `with`-syntax import tier,
`assert`-syntax import tier, then — only for the default `"json"` type — the
raw-read tier, whose failure either re-dispatches the whole load on the
fallback reference with the identical options or raises the exhaustion
error; a non-default type that no import tier accepted raises the
unsupported-type error.  `fuel` bounds the fallback recursion (the source has
no cycle guard and can recurse forever). -/
def wisp (env : Env) : Nat → Input → Opts → St → Except Err (Nat × St)
  | 0, _, _, _ => .error .fuelOut
  | fuel + 1, input, opts, st =>
    match computeUrl env input opts with
    | .error e => .error e
    | .ok href =>
      match tierImport env.withOk env.withNonJson env href opts st with
      | (some i, st₁) => .ok (i, st₁)
      | (none, st₁) =>
        match tierImport env.assertOk env.assertNonJson env href opts st₁ with
        | (some i, st₂) => .ok (i, st₂)
        | (none, st₂) =>
          if opts.type == "json" then
            match tierRaw env href opts st₂ with
            | .ok r => .ok r
            | .error msg =>
              match opts.fallback with
              | some fb => wisp env fuel fb opts st₂
              | none =>
                .error (.error (wispTag ++ "Failed to load JSON file at " ++ href ++ ": " ++ msg))
          else
            .error (.error (wispTag ++ "Unsupported type " ++ opts.type ++
              " or failed to load module at " ++ href))

/-- Embeds `wispSync` of `src/wisp.mjs` (lines 156–185): the same URL
prologue, then the blocking raw-read pipeline only — the declared `type` is
destructured but never consulted; failure re-dispatches on the fallback with
the identical options or raises the exhaustion error. -/
def wispSync (env : Env) : Nat → Input → Opts → St → Except Err (Nat × St)
  | 0, _, _, _ => .error .fuelOut
  | fuel + 1, input, opts, st =>
    match computeUrl env input opts with
    | .error e => .error e
    | .ok href =>
      match tierRaw env href opts st with
      | .ok r => .ok r
      | .error msg =>
        match opts.fallback with
        | some fb => wispSync env fuel fb opts st
        | none =>
          .error (.error (wispTag ++ "Failed to load JSON file at " ++ href ++ ": " ++ msg))

/-!
## The caller-aware resolver (`src/lib/resolve-from-caller.mjs`)

The resolver's host environment is a sampled stack (each frame carrying the
`getFileName()` result, `none` when absent), the resolver module's own file
path (`THIS_FILE`), the memoized package root (`PACKAGE_ROOT`), and the
filesystem existence predicate (`fs.existsSync`, over filesystem paths).
-/

/-- Unix model of `url.fileURLToPath`: strip the `file://` scheme. -/
def fileURLToPath (u : String) : String :=
  strDrop 7 u

/-- Embeds `toFsPath`: convert a `file://` locator to a path, pass a
non-empty string through, and map a falsy value to null. -/
def toFsPath (g : String) : Option String :=
  if strStarts "file://" g then some (fileURLToPath g)
  else if g == "" then none
  else some g

/-- Resolver environment: the sampled frames (deepest first), the resolver's
own source file, the package boundary, and the filesystem. -/
structure RE where
  frames : List (Option String)
  thisFile : String
  packageRoot : Option String
  fsExists : String → Bool

/-- The per-frame skip logic shared by both base-file selectors: a frame
qualifies when it has a file name, `toFsPath` of it is non-null, it is not a
`node:internal` module, and it is not the resolver's own file. -/
def frameFile (re : RE) (fr : Option String) : Option String :=
  match fr with
  | none => none
  | some g =>
    match toFsPath g with
    | none => none
    | some f =>
      if strStarts "node:internal" f then none
      else if f == re.thisFile then none
      else some f

/-- The path of `f` relative to the package root, split on the separator
(`path.relative` on a file under the root, then `split(path.sep)`). -/
def splitSegs (root f : String) : List String :=
  splitSlash [] (strDrop (root.length + 1) f).data

/-- "This frame's file is inside the `src` or `dist` subtree of the package
boundary" (first segment of the boundary-relative path). -/
def inSrcOrDist (root? : Option String) (f : String) : Bool :=
  match root? with
  | none => false
  | some root =>
    if strStarts (root ++ "/") f then
      let segs := splitSegs root f
      segs.headD "" == "src" || segs.headD "" == "dist"
    else false

/-- "This frame's file is literally an `index.(mjs|cjs|js|ts)` entry file at
the boundary root" (one segment, matching the index regex). -/
def isIndexEntry (root? : Option String) (f : String) : Bool :=
  match root? with
  | none => false
  | some root =>
    if strStarts (root ++ "/") f then
      let segs := splitSegs root f
      segs.length == 1 &&
        (segs.headD "" == "index.mjs" || segs.headD "" == "index.cjs" ||
         segs.headD "" == "index.js" || segs.headD "" == "index.ts")
    else false

/-- The loop body of `pickPrimaryBaseFile`, with its four mutable booleans
(`exitedSrcOrDist`, `exitedIndex`, `previousWasInSrcOrDist`,
`previousWasIndex`) made explicit loop state.  Skipped frames leave all
state untouched; on a qualifying frame both exit flags are refreshed from
the previous booleans, and the frame is returned as soon as the src/dist
exit flag is set. -/
def pickLoop (re : RE) (exited exitedIdx prevSrc prevIdx : Bool) :
    List (Option String) → Option String
  | [] => none
  | fr :: rest =>
    match frameFile re fr with
    | none => pickLoop re exited exitedIdx prevSrc prevIdx rest
    | some f =>
      let curSrc := inSrcOrDist re.packageRoot f
      let curIdx := isIndexEntry re.packageRoot f
      let exited' := exited || (prevSrc && !curSrc)
      let exitedIdx' := exitedIdx || (prevIdx && !curIdx)
      if exited' then some f
      else pickLoop re exited' exitedIdx' curSrc curIdx rest

/-- Embeds `pickPrimaryBaseFile`: run the two-flag state machine over the
sampled frames with all state initially false. -/
def pickPrimaryBaseFile (re : RE) : Option String :=
  pickLoop re false false false false re.frames

/-- The linear scan of `pickFallbackBaseFile`. -/
def pickFallbackGo (re : RE) : List (Option String) → String
  | [] => re.thisFile
  | fr :: rest =>
    match frameFile re fr with
    | none => pickFallbackGo re rest
    | some f => f

/-- Embeds `pickFallbackBaseFile`: the first qualifying frame, the
resolver's own file as the inert last resort. -/
def pickFallbackBaseFile (re : RE) : String :=
  pickFallbackGo re re.frames

/-- Embeds `resolveWith` (lines 318–328): primary base =
`pickPrimaryBaseFile() ?? pickFallbackBaseFile()`; build the primary
candidate; return it if it exists; otherwise recompute a fallback base and
return the fallback candidate with no second existence check.  (The
`typeof rel !== "string"` guard on entry is vacuous at this type — the
public wrappers are shown never to reach `resolveWith` with a non-string,
see the input-contract theorems.) -/
def resolveWith (re : RE) (rel : String) (makePrimary : String → String → String)
    (existsFn : String → Bool) (makeFallback : String → String → String) : String :=
  let primaryBase := (pickPrimaryBaseFile re).getD (pickFallbackBaseFile re)
  let primary := makePrimary primaryBase rel
  if existsFn primary then primary
  else makeFallback (pickFallbackBaseFile re) rel

/-- How `rel.startsWith?.("file://")` evaluates on a non-string, non-nullish
JS value: the property is nullish (probe is falsy without a call), the
property is callable and the call returns a truthy/falsy value, or the
property is a non-callable non-nullish value (the optional call throws). -/
inductive NonStrProbe where
  | falsy
  | truthy
  | throws
deriving DecidableEq, Repr

/-- A JS value in reference position for the resolver wrappers: a string, a
nullish value (property access throws), or any other non-string object
characterized by its `startsWith?.("file://")` probe behaviour. -/
inductive JsVal where
  | str (s : String)
  | nullish
  | obj (p : NonStrProbe)
deriving DecidableEq, Repr

/-- Unix model of `path.dirname`. -/
def dirname (p : String) : String :=
  match beforeLastSlash p.data with
  | some cs =>
    let d := String.mk cs
    if d == "" then "/" else d
  | none => "."

/-- Model of `path.resolve(dir, rel)` for a relative `rel`. -/
def joinPath (dir r : String) : String :=
  dir ++ "/" ++ r

/-- Embeds `resolvePathFromCaller` (lines 377–391), including the evaluation
of its short-circuit guards on every JS value: on a nullish reference the
`startsWith` property access throws; a truthy probe sends the value into
`fileURLToPath`, which rejects non-strings; otherwise `path.isAbsolute`
rejects non-strings; only a string reaches `resolveWith`. -/
def resolvePathFromCaller (re : RE) (rel : JsVal) : Except Err JsVal :=
  match rel with
  | .nullish =>
    .error (.typeError "Cannot read properties of nullish (reading startsWith)")
  | .obj p =>
    match p with
    | .throws => .error (.typeError "rel.startsWith is not a function")
    | .truthy => .error (.typeError "The url argument must be of type string or an instance of URL")
    | .falsy => .error (.typeError "The path argument must be of type string")
  | .str s =>
    if strStarts "file://" s then .ok (.str (fileURLToPath s))
    else if isAbsolutePath s then .ok (.str s)
    else
      .ok (.str (resolveWith re s
        (fun baseFile r => joinPath (dirname baseFile) r)
        (fun candidate => re.fsExists candidate)
        (fun baseFile r => joinPath (dirname baseFile) r)))

/-- Embeds `resolveUrlFromCaller` (lines 439–453): same guard evaluation,
except that a truthy `startsWith` probe makes the first short-circuit
`return rel` fire, handing the non-string back unchanged; the existence
check converts the candidate locator back to a path. -/
def resolveUrlFromCaller (re : RE) (rel : JsVal) : Except Err JsVal :=
  match rel with
  | .nullish =>
    .error (.typeError "Cannot read properties of nullish (reading startsWith)")
  | .obj p =>
    match p with
    | .throws => .error (.typeError "rel.startsWith is not a function")
    | .truthy => .ok (.obj .truthy)
    | .falsy => .error (.typeError "The path argument must be of type string")
  | .str s =>
    if strStarts "file://" s then .ok (.str s)
    else if isAbsolutePath s then .ok (.str (pathToFileURL s))
    else
      .ok (.str (resolveWith re s
        (fun baseFile r => urlJoin r (pathToFileURL baseFile))
        (fun href => re.fsExists (fileURLToPath href))
        (fun baseFile r => urlJoin r (pathToFileURL baseFile))))

/-!
## The call-stack sampler (`getStack`, lines 123–133)

The only process-wide mutable resource: `Error.prepareStackTrace`.  The
sampler overrides it inside a `try`, and restores the saved original in the
`finally`, on the return path and on the throwing path alike
(`Error.captureStackTrace` models the body's possible exception).
-/

/-- Process-wide state: the current `Error.prepareStackTrace` hook,
identified abstractly (`none` = undefined, `some n` = the function with
identity `n`). -/
structure Proc where
  prepare : Option Nat
deriving DecidableEq, Repr

/-- The identity of the temporary `(_, s) => s` hook `getStack` installs. -/
def prepareOverride : Option Nat := some 1

/-- `try act finally fin`, for a body that produces a value (possibly an
error) and a new state: the finalizer runs on every exit path. -/
def tryFinallyRun {α σ : Type} (act : σ → α × σ) (fin : σ → σ) (s : σ) : α × σ :=
  let (a, s₁) := act s
  (a, fin s₁)

/-- Embeds `getStack`: save the original hook, install the override, build
the error and capture the stack (a step that may itself throw, modelled by
`captureThrows`), and restore the original hook in the `finally`. -/
def getStack (p : Proc) (captureThrows : Bool) (frames : List (Option String)) :
    Except Err (List (Option String)) × Proc :=
  let orig := p.prepare
  tryFinallyRun
    (fun _ =>
      let q : Proc := { prepare := prepareOverride }
      if captureThrows then (Except.error (Err.typeError "invalid skip function"), q)
      else (Except.ok frames, q))
    (fun q => { q with prepare := orig })
    p

/-!
## Helper lemmas and shared test fixtures
-/

/-- `List.getD` at the index of a freshly appended element. -/
theorem getD_append_self (l : List Json) (v d : Json) :
    (l ++ [v]).getD l.length d = v := by
  induction l with
  | nil => rfl
  | cons a t ih => simp [ih]

/-- `List.getD` below the length of the left part of an append. -/
theorem getD_append_left (l ext : List Json) (j : Nat) (h : j < l.length) (d : Json) :
    (l ++ ext).getD j d = l.getD j d := by
  induction l generalizing j with
  | nil => simp at h
  | cons a t ih =>
    cases j with
    | zero => rfl
    | succ j' => simpa using ih j' (by simpa using h)

/-- Setting one cell leaves every other cell's `getD` unchanged. -/
theorem getD_set_ne (l : List Json) (i j : Nat) (h : i ≠ j) (a d : Json) :
    (l.set i a).getD j d = l.getD j d := by
  simp only [List.getD_eq_getElem?_getD]
  rw [List.getElem?_set_ne h]

/-- A fixture environment: one well-formed JSON document, one document whose
top-level value is JSON null, one fallback document, everything else
missing; both import syntaxes supported; no non-JSON module support. -/
def envT : Env where
  resolveUrl := fun s => "file:///R/" ++ s
  files := fun h =>
    if h == "file:///t/a.json" then some (.obj [("a", .num 1)])
    else if h == "file:///t/n.json" then some .null
    else if h == "file:///t/fb.json" then some (.num 7)
    else none
  failMsg := fun _ => "ENOENT"
  withOk := true
  assertOk := true
  withNonJson := fun _ _ => none
  assertNonJson := fun _ _ => none

/-- A fixture resolver environment: a user frame under the package src tree,
then an outside frame; nothing exists on the filesystem. -/
def reT : RE where
  frames := [some "/pkg/src/lib/resolve-from-caller.mjs", some "/pkg/src/wisp.mjs", some "/proj/app.mjs"]
  thisFile := "/pkg/src/lib/resolve-from-caller.mjs"
  packageRoot := some "/pkg"
  fsExists := fun _ => false

/-!
## C9 — the sampler restores the trace-formatting hook on every exit path
-/

/-- C9: for every invocation of `getStack` — the non-throwing sampling path
and the path on which building/capturing the stack raises alike — the
process-wide `Error.prepareStackTrace` hook is restored to its prior value
on exit, and the non-throwing path returns the sampled frames. -/
theorem c9_prepare_hook_restored (p : Proc) (ct : Bool) (frames : List (Option String)) :
    ((getStack p ct frames).2.prepare = p.prepare) ∧
    ((getStack p false frames).1 = Except.ok frames) ∧
    (∃ e, (getStack p true frames).1 = Except.error e) := by
  refine ⟨?_, rfl, ⟨_, rfl⟩⟩
  cases ct <;> rfl

/-!
## C6 — the primary base-file selector's two-flag state machine
-/

/-- Specification-side restatement of the primary selector, from the spec:
scan the qualifying frames in order, tracking the previous qualifying
frame's inside-src/dist boolean (initially false); return the first frame at
which that boolean transitions from true to false; return null if the scan
completes without a transition. -/
def pickPrimarySpec (re : RE) : Bool → List String → Option String
  | _, [] => none
  | prev, f :: rest =>
    if prev && !(inSrcOrDist re.packageRoot f) then some f
    else pickPrimarySpec re (inSrcOrDist re.packageRoot f) rest

/-- The state-machine loop, before any src/dist exit has fired, computes the
spec scan over the qualifying (non-skipped) frames, whatever the index-file
state. -/
theorem pickLoop_eq_spec (re : RE) (frames : List (Option String))
    (prev eIdx pIdx : Bool) :
    pickLoop re false eIdx prev pIdx frames =
      pickPrimarySpec re prev (frames.filterMap (frameFile re)) := by
  induction frames generalizing prev eIdx pIdx with
  | nil => rfl
  | cons fr rest ih =>
    cases h : frameFile re fr with
    | none => simp [pickLoop, h, List.filterMap_cons, ih]
    | some f =>
      simp only [pickLoop, h, List.filterMap_cons, pickPrimarySpec, Bool.false_or]
      cases hb : prev && !(inSrcOrDist re.packageRoot f) with
      | true => simp [hb]
      | false => simp [hb, ih]

/-- C6: the primary base-file selector returns the first frame at which the
inside-src/dist boolean transitions from true (on the previous qualifying
frame, initially false) to false (on the current frame), scanning only
qualifying frames — null-file, runtime-internal and own-file frames are
dropped and never update the previous state — and returns null when the
scan completes without such a transition (first conjunct, via the
qualifying-frames characterisation `pickPrimarySpec`); the index-file state
of the machine never alters the return decision (second conjunct). -/
theorem c6_primary_selector_state_machine (re : RE) :
    (pickPrimaryBaseFile re =
      pickPrimarySpec re false (re.frames.filterMap (frameFile re))) ∧
    (∀ (frames : List (Option String)) (prev eIdx pIdx eIdx' pIdx' : Bool),
      pickLoop re false eIdx prev pIdx frames = pickLoop re false eIdx' prev pIdx' frames) := by
  constructor
  · exact pickLoop_eq_spec re re.frames false false false
  · intro frames prev eIdx pIdx eIdx' pIdx'
    rw [pickLoop_eq_spec, pickLoop_eq_spec]

/-!
## C5 — two-phase resolution for relative references
-/

/-- C5: for a relative string reference (not a `file://` locator, not an
absolute path), each resolver mode builds the primary candidate by joining
the reference against the directory of `pickPrimaryBaseFile() ??
pickFallbackBaseFile()` and returns it exactly when it exists on the
filesystem (URL-mode converting the candidate back to a path for the test);
otherwise it returns the candidate built from a recomputed
`pickFallbackBaseFile()` base, with no second existence check. -/
theorem c5_two_phase_resolution (re : RE) (s : String)
    (h1 : strStarts "file://" s = false) (h2 : isAbsolutePath s = false) :
    (resolvePathFromCaller re (.str s) =
      .ok (.str
        (if re.fsExists (joinPath (dirname ((pickPrimaryBaseFile re).getD (pickFallbackBaseFile re))) s)
         then joinPath (dirname ((pickPrimaryBaseFile re).getD (pickFallbackBaseFile re))) s
         else joinPath (dirname (pickFallbackBaseFile re)) s))) ∧
    (resolveUrlFromCaller re (.str s) =
      .ok (.str
        (if re.fsExists (fileURLToPath (urlJoin s (pathToFileURL ((pickPrimaryBaseFile re).getD (pickFallbackBaseFile re)))))
         then urlJoin s (pathToFileURL ((pickPrimaryBaseFile re).getD (pickFallbackBaseFile re)))
         else urlJoin s (pathToFileURL (pickFallbackBaseFile re))))) := by
  constructor
  · simp [resolvePathFromCaller, resolveWith, h1, h2]
  · simp [resolveUrlFromCaller, resolveWith, h1, h2]

/-- Witness for C5 at a concrete relative reference and resolver
environment. -/
theorem c5_witness :
    (resolvePathFromCaller reT (.str "./x.json") =
      .ok (.str
        (if reT.fsExists (joinPath (dirname ((pickPrimaryBaseFile reT).getD (pickFallbackBaseFile reT))) "./x.json")
         then joinPath (dirname ((pickPrimaryBaseFile reT).getD (pickFallbackBaseFile reT))) "./x.json"
         else joinPath (dirname (pickFallbackBaseFile reT)) "./x.json"))) ∧
    (resolveUrlFromCaller reT (.str "./x.json") =
      .ok (.str
        (if reT.fsExists (fileURLToPath (urlJoin "./x.json" (pathToFileURL ((pickPrimaryBaseFile reT).getD (pickFallbackBaseFile reT)))))
         then urlJoin "./x.json" (pathToFileURL ((pickPrimaryBaseFile reT).getD (pickFallbackBaseFile reT)))
         else urlJoin "./x.json" (pathToFileURL (pickFallbackBaseFile reT))))) :=
  c5_two_phase_resolution reT "./x.json" (by decide) (by decide)


/-!
## C7 — non-string references and the resolver entry points
-/

/-- C7 counterexample: a non-string reference whose `startsWith` probe
answers truthy for `file://` is *not* rejected by the URL-mode resolver —
the first short-circuit hands it back unchanged as a successful result. -/
theorem c7_counterexample :
    resolveUrlFromCaller reT (.obj .truthy) = .ok (.obj .truthy) := rfl

/-- C7 amended: every non-string reference is settled before any stack
sampling and before the filesystem is touched (the result is independent of
the entire resolver environment); the path-mode resolver rejects every
non-string with a type-mismatch (TypeError) failure, and the URL-mode
resolver does too except for a non-string whose `startsWith?.("file://")`
probe is truthy, which its first short-circuit returns unchanged instead of
rejecting. -/
theorem c7_amended :
    (∀ (re re' : RE) (v : JsVal), (∀ s, v ≠ .str s) →
      resolvePathFromCaller re v = resolvePathFromCaller re' v ∧
      ∃ m, resolvePathFromCaller re v = .error (.typeError m)) ∧
    (∀ (re re' : RE) (v : JsVal), (∀ s, v ≠ .str s) →
      resolveUrlFromCaller re v = resolveUrlFromCaller re' v ∧
      (v = .obj .truthy → resolveUrlFromCaller re v = .ok v) ∧
      (v ≠ .obj .truthy → ∃ m, resolveUrlFromCaller re v = .error (.typeError m))) := by
  constructor
  · intro re re' v hns
    match v with
    | .str s => exact absurd rfl (hns s)
    | .nullish => exact ⟨rfl, _, rfl⟩
    | .obj .falsy => exact ⟨rfl, _, rfl⟩
    | .obj .truthy => exact ⟨rfl, _, rfl⟩
    | .obj .throws => exact ⟨rfl, _, rfl⟩
  · intro re re' v hns
    match v with
    | .str s => exact absurd rfl (hns s)
    | .nullish =>
      refine ⟨rfl, ?_, ?_⟩
      · intro h; exact nomatch h
      · intro _; exact ⟨_, rfl⟩
    | .obj .falsy =>
      refine ⟨rfl, ?_, ?_⟩
      · intro h; exact nomatch h
      · intro _; exact ⟨_, rfl⟩
    | .obj .truthy =>
      refine ⟨rfl, ?_, ?_⟩
      · intro _; exact rfl
      · intro h; exact absurd rfl h
    | .obj .throws =>
      refine ⟨rfl, ?_, ?_⟩
      · intro h; exact nomatch h
      · intro _; exact ⟨_, rfl⟩

/-- Witness for C7 (amended) at the concrete non-string reference
`nullish`. -/
theorem c7_witness :
    (resolvePathFromCaller reT .nullish = resolvePathFromCaller reT .nullish ∧
      ∃ m, resolvePathFromCaller reT .nullish = .error (.typeError m)) ∧
    (resolveUrlFromCaller reT .nullish = resolveUrlFromCaller reT .nullish ∧
      (JsVal.nullish = .obj .truthy → resolveUrlFromCaller reT .nullish = .ok .nullish) ∧
      (JsVal.nullish ≠ .obj .truthy →
        ∃ m, resolveUrlFromCaller reT .nullish = .error (.typeError m))) :=
  ⟨c7_amended.1 reT reT .nullish (fun _ h => JsVal.noConfusion h),
   c7_amended.2 reT reT .nullish (fun _ h => JsVal.noConfusion h)⟩

/-!
## C3 — non-default declared types and the raw-read tier
-/

/-- C3 counterexample: the synchronous loader given a non-default declared
type enters the raw-read tier anyway and succeeds on a plain JSON file — it
has no import strategy and never raises an unsupported-type failure. -/
theorem c3_counterexample :
    wispSync envT 1 (.url "file:///t/a.json") { type := "yaml" } {} =
      .ok (0, { heap := [.obj [("a", .num 1)]], reg := [] }) := rfl

/-- `importVia` only consults the file table for the JSON type. -/
theorem importVia_files_irrelevant (ok : Bool) (nj : String → String → Option Json)
    (env : Env) (files' : String → Option Json) (failMsg' : String → String)
    (href ty : String) (st : St) (hty : (ty == "json") = false) :
    importVia ok nj { env with files := files', failMsg := failMsg' } href ty st =
      importVia ok nj env href ty st := by
  cases ok <;> simp [importVia, hty]

/-- `tierImport` only consults the file table for the JSON type. -/
theorem tierImport_files_irrelevant (ok : Bool) (nj : String → String → Option Json)
    (env : Env) (files' : String → Option Json) (failMsg' : String → String)
    (href : String) (opts : Opts) (st : St) (hty : (opts.type == "json") = false) :
    tierImport ok nj { env with files := files', failMsg := failMsg' } href opts st =
      tierImport ok nj env href opts st := by
  unfold tierImport
  rw [importVia_files_irrelevant ok nj env files' failMsg' href opts.type st hty]

/-- C3 amended: in the asynchronous loader a non-default declared type
bypasses the raw-read tier entirely — the result never depends on the file
table or on the read-failure messages (first conjunct, so the load either
succeeds via an import strategy or fails without reading), and when no
import-style strategy accepts the request it raises the unsupported-type failure
naming the declared type and the resolved location, without consulting the
fallback (second conjunct); the synchronous loader, by contrast, ignores the
declared type entirely: its behaviour is identical for every `type` value,
always entering the raw-read tier (third conjunct). -/
theorem c3_amended :
    (∀ (env : Env) (files' : String → Option Json) (failMsg' : String → String)
       (n : Nat) (input : Input) (opts : Opts) (st : St),
      (opts.type == "json") = false →
      wisp { env with files := files', failMsg := failMsg' } n input opts st =
        wisp env n input opts st) ∧
    (∀ (env : Env) (n : Nat) (input : Input) (opts : Opts) (st st₁ st₂ : St) (href : String),
      computeUrl env input opts = .ok href →
      (opts.type == "json") = false →
      tierImport env.withOk env.withNonJson env href opts st = (none, st₁) →
      tierImport env.assertOk env.assertNonJson env href opts st₁ = (none, st₂) →
      wisp env (n + 1) input opts st =
        .error (.error (wispTag ++ "Unsupported type " ++ opts.type ++
          " or failed to load module at " ++ href))) ∧
    (∀ (env : Env) (n : Nat) (input : Input) (opts : Opts) (st : St) (t : String),
      wispSync env n input { opts with type := t } st = wispSync env n input opts st) := by
  refine ⟨?_, ?_, ?_⟩
  · intro env files' failMsg' n input opts st hty
    cases n with
    | zero => rfl
    | succ n =>
      simp only [wisp]
      rw [show computeUrl { env with files := files', failMsg := failMsg' } input opts =
        computeUrl env input opts from rfl]
      cases hc : computeUrl env input opts with
      | error e => rfl
      | ok href =>
        have hti : ∀ (ok : Bool) (nj : String → String → Option Json) (st' : St),
            tierImport ok nj { env with files := files', failMsg := failMsg' } href opts st' =
              tierImport ok nj env href opts st' :=
          fun ok nj st' => tierImport_files_irrelevant ok nj env files' failMsg' href opts st' hty
        simp [hti, hty]
  · intro env n input opts st st₁ st₂ href hc hty h1 h2
    simp [wisp, hc, h1, h2, hty]
  · intro env n input opts st t
    induction n generalizing input st with
    | zero => rfl
    | succ n ih =>
      simp only [wispSync]
      rw [show computeUrl env input { opts with type := t } = computeUrl env input opts from rfl]
      cases hc : computeUrl env input opts with
      | error e => rfl
      | ok href =>
        dsimp only
        rw [show tierRaw env href { opts with type := t } st = tierRaw env href opts st from rfl]
        cases ht : tierRaw env href opts st with
        | ok r => rfl
        | error msg =>
          dsimp only
          rw [show ({ opts with type := t } : Opts).fallback = opts.fallback from rfl]
          cases hfb : opts.fallback with
          | some fb =>
            dsimp only
            rw [← hfb]
            exact ih fb st
          | none => rfl

/-- Witness for C3 (amended), instantiating all three conjuncts at the
concrete non-default type `"yaml"`. -/
theorem c3_witness :
    (wisp { envT with files := fun _ => none, failMsg := fun _ => "x" } 1
        (.url "file:///t/a.json") { type := "yaml" } {} =
      wisp envT 1 (.url "file:///t/a.json") { type := "yaml" } {}) ∧
    (wisp envT 1 (.url "file:///t/a.json") { type := "yaml" } {} =
      .error (.error (wispTag ++ "Unsupported type " ++ "yaml" ++
        " or failed to load module at " ++ "file:///t/a.json"))) ∧
    (wispSync envT 1 (.url "file:///t/a.json") { type := "yaml" } {} =
      wispSync envT 1 (.url "file:///t/a.json") {} {}) := by
  refine ⟨?_, ?_, ?_⟩
  · exact c3_amended.1 envT (fun _ => none) (fun _ => "x") 1 (.url "file:///t/a.json")
      { type := "yaml" } {} (by decide)
  · exact c3_amended.2.1 envT 0 (.url "file:///t/a.json") { type := "yaml" } {} {} {}
      "file:///t/a.json" rfl (by decide) rfl rfl
  · exact c3_amended.2.2 envT 1 (.url "file:///t/a.json") {} {} "yaml"

/-!
## C10 — `options.base` and bypassing caller detection
-/

/-- C10 counterexample: with `options.base` supplied but equal to the empty
string (a falsy value), the loaders do consult the caller-detection
resolver: two environments differing only in `resolveUrl` produce different
results, and the failure names the resolver's location, not a join against
`base`. -/
theorem c10_counterexample :
    (wispSync { envT with resolveUrl := fun s => "file:///A/" ++ s } 1 (.str "./a.json")
        { base := some "" } {} =
      .error (.error "@cldmv/wisp: Failed to load JSON file at file:///A/./a.json: ENOENT")) ∧
    (wispSync { envT with resolveUrl := fun s => "file:///B/" ++ s } 1 (.str "./a.json")
        { base := some "" } {} =
      .error (.error "@cldmv/wisp: Failed to load JSON file at file:///B/./a.json: ENOENT")) ∧
    ("@cldmv/wisp: Failed to load JSON file at file:///A/./a.json: ENOENT" ≠
      "@cldmv/wisp: Failed to load JSON file at file:///B/./a.json: ENOENT") :=
  ⟨rfl, rfl, by decide⟩

/-- With a truthy `base`, the URL prologue never consults the resolver. -/
theorem computeUrl_base_no_resolver (env : Env) (ru : String → String) (input : Input)
    (opts : Opts) (b : String) (hb : opts.base = some b) (hne : b ≠ "") :
    computeUrl { env with resolveUrl := ru } input opts = computeUrl env input opts := by
  cases input with
  | url h => rfl
  | str s => simp [computeUrl, hb, hne]

/-- The asynchronous loader is independent of the resolver whenever the
options carry a truthy `base` (the identical options flow into every
fallback re-dispatch, so the whole load never samples the stack). -/
theorem wisp_resolver_irrelevant (env : Env) (ru : String → String) (opts : Opts)
    (b : String) (hb : opts.base = some b) (hne : b ≠ "") :
    ∀ (n : Nat) (input : Input) (st : St),
      wisp { env with resolveUrl := ru } n input opts st = wisp env n input opts st := by
  intro n
  induction n with
  | zero => intro input st; rfl
  | succ n ih =>
    intro input st
    simp only [wisp]
    rw [computeUrl_base_no_resolver env ru input opts b hb hne]
    cases hc : computeUrl env input opts with
    | error e => rfl
    | ok href =>
      have hti : ∀ (ok : Bool) (nj : String → String → Option Json) (st' : St),
          tierImport ok nj { env with resolveUrl := ru } href opts st' =
            tierImport ok nj env href opts st' := fun _ _ _ => rfl
      have htr : ∀ st' : St,
          tierRaw { env with resolveUrl := ru } href opts st' = tierRaw env href opts st' :=
        fun _ => rfl
      have hrec : ∀ (fb : Input) (st' : St),
          wisp { env with resolveUrl := ru } n fb opts st' = wisp env n fb opts st' :=
        fun fb st' => ih fb st'
      dsimp only
      simp only [hti, htr, hrec]

/-- The synchronous loader is likewise resolver-independent under a truthy
`base`. -/
theorem wispSync_resolver_irrelevant (env : Env) (ru : String → String) (opts : Opts)
    (b : String) (hb : opts.base = some b) (hne : b ≠ "") :
    ∀ (n : Nat) (input : Input) (st : St),
      wispSync { env with resolveUrl := ru } n input opts st = wispSync env n input opts st := by
  intro n
  induction n with
  | zero => intro input st; rfl
  | succ n ih =>
    intro input st
    simp only [wispSync]
    rw [computeUrl_base_no_resolver env ru input opts b hb hne]
    cases hc : computeUrl env input opts with
    | error e => rfl
    | ok href =>
      have htr : ∀ st' : St,
          tierRaw { env with resolveUrl := ru } href opts st' = tierRaw env href opts st' :=
        fun _ => rfl
      have hrec : ∀ (fb : Input) (st' : St),
          wispSync { env with resolveUrl := ru } n fb opts st' = wispSync env n fb opts st' :=
        fun fb st' => ih fb st'
      dsimp only
      simp only [htr, hrec]

/-- C10 amended: for loads whose options carry a truthy (non-empty) `base`,
both loaders are entirely independent of the caller-detection machinery
(first two conjuncts: the result never depends on `resolveUrl`, hence no
stack sampling), and a relative string reference resolves to exactly
`new URL(reference, new URL(base))` (third conjunct).  With `base` supplied
but falsy (the empty string) the prologue falls through to
`resolveUrlFromCaller` instead — the uncorrected claim fails there. -/
theorem c10_amended :
    (∀ (env : Env) (ru : String → String) (opts : Opts) (b : String),
      opts.base = some b → b ≠ "" →
      ∀ (n : Nat) (input : Input) (st : St),
        wisp { env with resolveUrl := ru } n input opts st = wisp env n input opts st) ∧
    (∀ (env : Env) (ru : String → String) (opts : Opts) (b : String),
      opts.base = some b → b ≠ "" →
      ∀ (n : Nat) (input : Input) (st : St),
        wispSync { env with resolveUrl := ru } n input opts st = wispSync env n input opts st) ∧
    (∀ (env : Env) (s b ub : String) (opts : Opts),
      opts.base = some b → b ≠ "" →
      strStarts "file://" s = false → isAbsolutePath s = false →
      parseUrl b = some ub →
      computeUrl env (.str s) opts = .ok (urlJoin s ub)) := by
  refine ⟨fun env ru opts b hb hne => wisp_resolver_irrelevant env ru opts b hb hne,
    fun env ru opts b hb hne => wispSync_resolver_irrelevant env ru opts b hb hne,
    ?_⟩
  intro env s b ub opts hb hne hs1 hs2 hpb
  simp [computeUrl, hb, hne, hs1, hs2, hpb]

/-- Witness for C10 (amended) at a concrete truthy base. -/
theorem c10_witness :
    (wisp { envT with resolveUrl := fun s => "file:///A/" ++ s } 1 (.str "./a.json")
        { base := some "file:///B/x.mjs" } {} =
      wisp envT 1 (.str "./a.json") { base := some "file:///B/x.mjs" } {}) ∧
    (wispSync { envT with resolveUrl := fun s => "file:///A/" ++ s } 1 (.str "./a.json")
        { base := some "file:///B/x.mjs" } {} =
      wispSync envT 1 (.str "./a.json") { base := some "file:///B/x.mjs" } {}) ∧
    (computeUrl envT (.str "./a.json") { base := some "file:///B/x.mjs" } =
      .ok (urlJoin "./a.json" "file:///B/x.mjs")) := by
  refine ⟨?_, ?_, ?_⟩
  · exact c10_amended.1 envT (fun s => "file:///A/" ++ s) { base := some "file:///B/x.mjs" }
      "file:///B/x.mjs" rfl (by decide) 1 (.str "./a.json") {}
  · exact c10_amended.2.1 envT (fun s => "file:///A/" ++ s) { base := some "file:///B/x.mjs" }
      "file:///B/x.mjs" rfl (by decide) 1 (.str "./a.json") {}
  · exact c10_amended.2.2 envT "./a.json" "file:///B/x.mjs" "file:///B/x.mjs"
      { base := some "file:///B/x.mjs" } rfl (by decide) (by decide) (by decide) rfl

/-!
## C4 — fallback re-dispatch and exhaustion
-/

/-- Both import tiers fail, without touching the state, when the module is
not cached and the file is missing (JSON type). -/
theorem tierImport_missing (ok : Bool) (nj : String → String → Option Json) (env : Env)
    (href : String) (opts : Opts) (st : St) (hty : opts.type = "json")
    (hl : st.reg.lookup href = none) (hf : env.files href = none) :
    tierImport ok nj env href opts st = (none, st) := by
  cases ok <;> simp [tierImport, importVia, hty, hl, hf]

/-- C4: when the raw-read tier's read/parse fails (missing or unparsable
file) and a fallback reference is supplied, each loader re-dispatches the
entire load on the fallback with the *identical* options object, original
fallback included (conjuncts 1–2); a missing reference whose fallback names
an existing document yields that document's parsed content (conjuncts 3–4);
and the same missing reference with no fallback raises the exhaustion
failure naming the resolved location and the underlying cause (conjuncts
5–6). -/
theorem c4_fallback_redispatch :
    (∀ (env : Env) (n : Nat) (input : Input) (opts : Opts) (st : St) (href : String) (fb : Input),
      computeUrl env input opts = .ok href → opts.type = "json" →
      st.reg.lookup href = none → env.files href = none → opts.fallback = some fb →
      wisp env (n + 1) input opts st = wisp env n fb opts st) ∧
    (∀ (env : Env) (n : Nat) (input : Input) (opts : Opts) (st : St) (href : String) (fb : Input),
      computeUrl env input opts = .ok href →
      env.files href = none → opts.fallback = some fb →
      wispSync env (n + 1) input opts st = wispSync env n fb opts st) ∧
    (∀ (env : Env) (n : Nat) (input : Input) (opts : Opts) (st : St) (href hrefFb : String)
       (fb : Input) (v : Json),
      computeUrl env input opts = .ok href → opts.type = "json" →
      st.reg.lookup href = none → env.files href = none → opts.fallback = some fb →
      computeUrl env fb opts = .ok hrefFb → st.reg.lookup hrefFb = none →
      env.files hrefFb = some v → v.isNull = false →
      opts.reviver = none → opts.validate = none →
      ∃ k st', wisp env (n + 2) input opts st = .ok (k, st') ∧ st'.heap.getD k .null = v) ∧
    (∀ (env : Env) (n : Nat) (input : Input) (opts : Opts) (st : St) (href hrefFb : String)
       (fb : Input) (v : Json),
      computeUrl env input opts = .ok href →
      env.files href = none → opts.fallback = some fb →
      computeUrl env fb opts = .ok hrefFb → env.files hrefFb = some v →
      opts.reviver = none → opts.validate = none →
      ∃ k st', wispSync env (n + 2) input opts st = .ok (k, st') ∧ st'.heap.getD k .null = v) ∧
    (∀ (env : Env) (n : Nat) (input : Input) (opts : Opts) (st : St) (href : String),
      computeUrl env input opts = .ok href → opts.type = "json" →
      st.reg.lookup href = none → env.files href = none → opts.fallback = none →
      wisp env (n + 1) input opts st =
        .error (.error (wispTag ++ "Failed to load JSON file at " ++ href ++ ": " ++
          env.failMsg href))) ∧
    (∀ (env : Env) (n : Nat) (input : Input) (opts : Opts) (st : St) (href : String),
      computeUrl env input opts = .ok href →
      env.files href = none → opts.fallback = none →
      wispSync env (n + 1) input opts st =
        .error (.error (wispTag ++ "Failed to load JSON file at " ++ href ++ ": " ++
          env.failMsg href))) := by
  have hredispatch : ∀ (env : Env) (n : Nat) (input : Input) (opts : Opts) (st : St)
      (href : String) (fb : Input),
      computeUrl env input opts = .ok href → opts.type = "json" →
      st.reg.lookup href = none → env.files href = none → opts.fallback = some fb →
      wisp env (n + 1) input opts st = wisp env n fb opts st := by
    intro env n input opts st href fb hc hty hl hf hfb
    have h1 := tierImport_missing env.withOk env.withNonJson env href opts st hty hl hf
    have h2 := tierImport_missing env.assertOk env.assertNonJson env href opts st hty hl hf
    simp [wisp, hc, h1, h2, hty, tierRaw, hf, hfb]
  have hredispatchS : ∀ (env : Env) (n : Nat) (input : Input) (opts : Opts) (st : St)
      (href : String) (fb : Input),
      computeUrl env input opts = .ok href →
      env.files href = none → opts.fallback = some fb →
      wispSync env (n + 1) input opts st = wispSync env n fb opts st := by
    intro env n input opts st href fb hc hf hfb
    simp [wispSync, hc, tierRaw, hf, hfb]
  refine ⟨hredispatch, hredispatchS, ?_, ?_, ?_, ?_⟩
  · intro env n input opts st href hrefFb fb v hc hty hl hf hfb hc2 hl2 hf2 hnull hr hv
    rw [hredispatch env (n + 1) input opts st href fb hc hty hl hf hfb]
    cases hw : env.withOk with
    | true =>
      refine ⟨st.heap.length, ⟨st.heap ++ [v], (hrefFb, st.heap.length) :: st.reg⟩, ?_,
        getD_append_self st.heap v .null⟩
      simp [wisp, hc2, tierImport, importVia, hw, hty, hl2, hf2, allocCell, hr, hv, hnull,
        List.getElem?_concat_length]
    | false =>
      cases ha : env.assertOk with
      | true =>
        refine ⟨st.heap.length, ⟨st.heap ++ [v], (hrefFb, st.heap.length) :: st.reg⟩, ?_,
          getD_append_self st.heap v .null⟩
        simp [wisp, hc2, tierImport, importVia, hw, ha, hty, hl2, hf2, allocCell, hr, hv, hnull,
          List.getElem?_concat_length]
      | false =>
        refine ⟨st.heap.length, ⟨st.heap ++ [v], st.reg⟩, ?_,
          getD_append_self st.heap v .null⟩
        simp [wisp, hc2, tierImport, importVia, hw, ha, hty, tierRaw, hf2, allocCell, deepClone,
          hr, hv, reviveW]
  · intro env n input opts st href hrefFb fb v hc hf hfb hc2 hf2 hr hv
    rw [hredispatchS env (n + 1) input opts st href fb hc hf hfb]
    refine ⟨st.heap.length, ⟨st.heap ++ [v], st.reg⟩, ?_, getD_append_self st.heap v .null⟩
    simp [wispSync, hc2, tierRaw, hf2, allocCell, deepClone, hr, hv, reviveW]
  · intro env n input opts st href hc hty hl hf hfbn
    have h1 := tierImport_missing env.withOk env.withNonJson env href opts st hty hl hf
    have h2 := tierImport_missing env.assertOk env.assertNonJson env href opts st hty hl hf
    simp [wisp, hc, h1, h2, hty, tierRaw, hf, hfbn]
  · intro env n input opts st href hc hf hfbn
    simp [wispSync, hc, tierRaw, hf, hfbn]

/-- Witness for C4 at a concrete missing reference with and without a
concrete existing fallback. -/
theorem c4_witness :
    (wisp envT 2 (.url "file:///t/missing.json")
        { fallback := some (.url "file:///t/fb.json") } {} =
      wisp envT 1 (.url "file:///t/fb.json")
        { fallback := some (.url "file:///t/fb.json") } {}) ∧
    (wispSync envT 2 (.url "file:///t/missing.json")
        { fallback := some (.url "file:///t/fb.json") } {} =
      wispSync envT 1 (.url "file:///t/fb.json")
        { fallback := some (.url "file:///t/fb.json") } {}) ∧
    (∃ k st', wisp envT 3 (.url "file:///t/missing.json")
        { fallback := some (.url "file:///t/fb.json") } {} = .ok (k, st') ∧
      st'.heap.getD k .null = .num 7) ∧
    (∃ k st', wispSync envT 3 (.url "file:///t/missing.json")
        { fallback := some (.url "file:///t/fb.json") } {} = .ok (k, st') ∧
      st'.heap.getD k .null = .num 7) ∧
    (wisp envT 1 (.url "file:///t/missing.json") {} {} =
      .error (.error (wispTag ++ "Failed to load JSON file at " ++ "file:///t/missing.json" ++
        ": " ++ envT.failMsg "file:///t/missing.json"))) ∧
    (wispSync envT 1 (.url "file:///t/missing.json") {} {} =
      .error (.error (wispTag ++ "Failed to load JSON file at " ++ "file:///t/missing.json" ++
        ": " ++ envT.failMsg "file:///t/missing.json"))) := by
  refine ⟨?_, ?_, ?_, ?_, ?_, ?_⟩
  · exact c4_fallback_redispatch.1 envT 1 (.url "file:///t/missing.json")
      { fallback := some (.url "file:///t/fb.json") } {} "file:///t/missing.json"
      (.url "file:///t/fb.json") rfl rfl rfl rfl rfl
  · exact c4_fallback_redispatch.2.1 envT 1 (.url "file:///t/missing.json")
      { fallback := some (.url "file:///t/fb.json") } {} "file:///t/missing.json"
      (.url "file:///t/fb.json") rfl rfl rfl
  · exact c4_fallback_redispatch.2.2.1 envT 1 (.url "file:///t/missing.json")
      { fallback := some (.url "file:///t/fb.json") } {} "file:///t/missing.json"
      "file:///t/fb.json" (.url "file:///t/fb.json") (.num 7) rfl rfl rfl rfl rfl rfl rfl rfl
      rfl rfl rfl
  · exact c4_fallback_redispatch.2.2.2.1 envT 1 (.url "file:///t/missing.json")
      { fallback := some (.url "file:///t/fb.json") } {} "file:///t/missing.json"
      "file:///t/fb.json" (.url "file:///t/fb.json") (.num 7) rfl rfl rfl rfl rfl rfl rfl
  · exact c4_fallback_redispatch.2.2.2.2.1 envT 0 (.url "file:///t/missing.json") {} {}
      "file:///t/missing.json" rfl rfl rfl rfl rfl
  · exact c4_fallback_redispatch.2.2.2.2.2 envT 0 (.url "file:///t/missing.json") {} {}
      "file:///t/missing.json" rfl rfl rfl

/-!
## C2 — validation-failure surfacing
-/

/-- C2 counterexample: a validation function raising `"X"` does *not* make
the load fail with the message `"@cldmv/wisp: X"` — in both loaders the
wrapped validation error is caught again by the raw-read tier's enclosing
catch and re-wrapped into the load-failure message, which merely contains
the prefixed text. -/
theorem c2_counterexample :
    (wispSync envT 1 (.url "file:///t/a.json") { validate := some (fun _ => some "X") } {} =
      .error (.error
        "@cldmv/wisp: Failed to load JSON file at file:///t/a.json: @cldmv/wisp: X")) ∧
    (wisp envT 1 (.url "file:///t/a.json") { validate := some (fun _ => some "X") } {} =
      .error (.error
        "@cldmv/wisp: Failed to load JSON file at file:///t/a.json: @cldmv/wisp: X")) ∧
    ("@cldmv/wisp: Failed to load JSON file at file:///t/a.json: @cldmv/wisp: X" ≠
      wispTag ++ "X") :=
  ⟨rfl, rfl, by decide⟩

/-- An import tier in which the supplied validation function raises: the
tier falls through (the wrapped error is swallowed by the tier's blanket
catch), leaving the module registered when the import itself succeeded. -/
theorem tierImport_validate_fails (ok : Bool) (nj : String → String → Option Json) (env : Env)
    (href : String) (opts : Opts) (st : St) (v : Json) (f : Json → Option String) (X : String)
    (hty : opts.type = "json") (hl : st.reg.lookup href = none) (hf : env.files href = some v)
    (hv : opts.validate = some f) (hX : f (reviveW opts v) = some X) :
    tierImport ok nj env href opts st =
      (none, if ok then ⟨st.heap ++ [v], (href, st.heap.length) :: st.reg⟩ else st) := by
  cases ok with
  | false => rfl
  | true =>
    cases hnull : v.isNull with
    | true =>
      simp [tierImport, importVia, hty, hl, hf, allocCell, hv, hnull,
        List.getElem?_concat_length]
    | false =>
      simp [tierImport, importVia, hty, hl, hf, allocCell, hv, hX, hnull,
        List.getElem?_concat_length]

/-- Same situation when the module is already in the registry with value
`v`: the tier falls through without touching the state. -/
theorem tierImport_validate_fails_cached (ok : Bool) (nj : String → String → Option Json)
    (env : Env) (href : String) (opts : Opts) (st : St) (i : Nat) (v : Json)
    (f : Json → Option String) (X : String)
    (hl : st.reg.lookup href = some i) (hgd : st.heap.getD i .null = v)
    (hv : opts.validate = some f) (hX : f (reviveW opts v) = some X) :
    tierImport ok nj env href opts st = (none, st) := by
  cases ok with
  | false => rfl
  | true =>
    rw [List.getD_eq_getElem?_getD] at hgd
    cases hnull : v.isNull with
    | true => simp [tierImport, importVia, hl, hgd, hv, hnull]
    | false => simp [tierImport, importVia, hl, hgd, hv, hX, hnull]

/-- C2 amended: when the supplied validation function raises `X` on the
obtained value, the wrapped `"<prefix>: X"` error never surfaces as the
call's own failure.  In the import tiers it is swallowed and control falls
through; in the raw-read tier (and in the synchronous loader) it is caught
by the enclosing read-failure handler, so with no fallback the call fails
with the doubly wrapped message `"<prefix>: Failed to load JSON file at
<location>: <prefix>: X"` (conjuncts 1–2), and with a fallback supplied a
validation failure triggers the fallback retry instead (conjuncts 3–4, the
asynchronous retry starting from the module-registry state the failed tiers
left behind). -/
theorem c2_amended :
    (∀ (env : Env) (n : Nat) (input : Input) (opts : Opts) (st : St) (href : String) (v : Json)
       (f : Json → Option String) (X : String),
      computeUrl env input opts = .ok href → opts.type = "json" →
      st.reg.lookup href = none → opts.fallback = none →
      env.files href = some v → opts.validate = some f →
      f (reviveW opts v) = some X →
      wisp env (n + 1) input opts st =
        .error (.error (wispTag ++ "Failed to load JSON file at " ++ href ++ ": " ++
          (wispTag ++ X)))) ∧
    (∀ (env : Env) (n : Nat) (input : Input) (opts : Opts) (st : St) (href : String) (v : Json)
       (f : Json → Option String) (X : String),
      computeUrl env input opts = .ok href → opts.fallback = none →
      env.files href = some v → opts.validate = some f →
      f (reviveW opts v) = some X →
      wispSync env (n + 1) input opts st =
        .error (.error (wispTag ++ "Failed to load JSON file at " ++ href ++ ": " ++
          (wispTag ++ X)))) ∧
    (∀ (env : Env) (n : Nat) (input : Input) (opts : Opts) (st : St) (href : String) (v : Json)
       (f : Json → Option String) (X : String) (fb : Input),
      computeUrl env input opts = .ok href → opts.type = "json" →
      st.reg.lookup href = none → opts.fallback = some fb →
      env.files href = some v → opts.validate = some f →
      f (reviveW opts v) = some X →
      ∃ st', wisp env (n + 1) input opts st = wisp env n fb opts st') ∧
    (∀ (env : Env) (n : Nat) (input : Input) (opts : Opts) (st : St) (href : String) (v : Json)
       (f : Json → Option String) (X : String) (fb : Input),
      computeUrl env input opts = .ok href → opts.fallback = some fb →
      env.files href = some v → opts.validate = some f →
      f (reviveW opts v) = some X →
      wispSync env (n + 1) input opts st = wispSync env n fb opts st) := by
  have hasync : ∀ (env : Env) (n : Nat) (input : Input) (opts : Opts) (st : St) (href : String)
      (v : Json) (f : Json → Option String) (X : String),
      computeUrl env input opts = .ok href → opts.type = "json" →
      st.reg.lookup href = none →
      env.files href = some v → opts.validate = some f →
      f (reviveW opts v) = some X →
      ∃ st₂ : St, wisp env (n + 1) input opts st =
        (match tierRaw env href opts st₂ with
          | .ok r => .ok r
          | .error msg =>
            match opts.fallback with
            | some fb => wisp env n fb opts st₂
            | none =>
              .error (.error (wispTag ++ "Failed to load JSON file at " ++ href ++ ": " ++ msg))) := by
    intro env n input opts st href v f X hc hty hl hf hv hX
    cases hw : env.withOk with
    | true =>
      have h1 := tierImport_validate_fails true env.withNonJson env href opts st v f X
        hty hl hf hv hX
      have hl1 : (St.mk (st.heap ++ [v]) ((href, st.heap.length) :: st.reg)).reg.lookup href =
          some st.heap.length := by simp [List.lookup]
      have hgd1 : (St.mk (st.heap ++ [v]) ((href, st.heap.length) :: st.reg)).heap.getD
          st.heap.length .null = v := getD_append_self st.heap v .null
      have h2 := tierImport_validate_fails_cached env.assertOk env.assertNonJson env href opts
        (St.mk (st.heap ++ [v]) ((href, st.heap.length) :: st.reg)) st.heap.length v f X
        hl1 hgd1 hv hX
      refine ⟨St.mk (st.heap ++ [v]) ((href, st.heap.length) :: st.reg), ?_⟩
      rw [← hw] at h1
      simp only [wisp, hc, h1, if_true, h2, hty]
      simp [hty]
    | false =>
      have h1 : tierImport env.withOk env.withNonJson env href opts st = (none, st) := by
        rw [hw]; rfl
      cases ha : env.assertOk with
      | true =>
        have h2 := tierImport_validate_fails true env.assertNonJson env href opts st v f X
          hty hl hf hv hX
        rw [← ha] at h2
        refine ⟨St.mk (st.heap ++ [v]) ((href, st.heap.length) :: st.reg), ?_⟩
        simp only [wisp, hc, h1, h2, if_true, hty]
        simp [hty]
      | false =>
        have h2 : tierImport env.assertOk env.assertNonJson env href opts st = (none, st) := by
          rw [ha]; rfl
        refine ⟨st, ?_⟩
        simp only [wisp, hc, h1, h2, hty]
        simp [hty]
  refine ⟨?_, ?_, ?_, ?_⟩
  · intro env n input opts st href v f X hc hty hl hfbn hf hv hX
    obtain ⟨st₂, heq⟩ := hasync env n input opts st href v f X hc hty hl hf hv hX
    rw [heq]
    simp [tierRaw, hf, hv, hX, hfbn]
  · intro env n input opts st href v f X hc hfbn hf hv hX
    simp [wispSync, hc, tierRaw, hf, hv, hX, hfbn]
  · intro env n input opts st href v f X fb hc hty hl hfb hf hv hX
    obtain ⟨st₂, heq⟩ := hasync env n input opts st href v f X hc hty hl hf hv hX
    refine ⟨st₂, ?_⟩
    rw [heq]
    simp [tierRaw, hf, hv, hX, hfb]
  · intro env n input opts st href v f X fb hc hfb hf hv hX
    simp [wispSync, hc, tierRaw, hf, hv, hX, hfb]

/-- Witness for C2 (amended) at a concrete document and validation
function. -/
theorem c2_witness :
    (wisp envT 1 (.url "file:///t/a.json") { validate := some (fun _ => some "X") } {} =
      .error (.error (wispTag ++ "Failed to load JSON file at " ++ "file:///t/a.json" ++ ": " ++
        (wispTag ++ "X")))) ∧
    (wispSync envT 1 (.url "file:///t/a.json") { validate := some (fun _ => some "X") } {} =
      .error (.error (wispTag ++ "Failed to load JSON file at " ++ "file:///t/a.json" ++ ": " ++
        (wispTag ++ "X")))) ∧
    (∃ st', wisp envT 1 (.url "file:///t/a.json")
        { validate := some (fun _ => some "X"), fallback := some (.url "file:///t/fb.json") } {} =
      wisp envT 0 (.url "file:///t/fb.json")
        { validate := some (fun _ => some "X"), fallback := some (.url "file:///t/fb.json") } st') ∧
    (wispSync envT 1 (.url "file:///t/a.json")
        { validate := some (fun _ => some "X"), fallback := some (.url "file:///t/fb.json") } {} =
      wispSync envT 0 (.url "file:///t/fb.json")
        { validate := some (fun _ => some "X"), fallback := some (.url "file:///t/fb.json") } {}) := by
  refine ⟨?_, ?_, ?_, ?_⟩
  · exact c2_amended.1 envT 0 (.url "file:///t/a.json")
      { validate := some (fun _ => some "X") } {} "file:///t/a.json" (.obj [("a", .num 1)])
      (fun _ => some "X") "X" rfl rfl rfl rfl rfl rfl rfl
  · exact c2_amended.2.1 envT 0 (.url "file:///t/a.json")
      { validate := some (fun _ => some "X") } {} "file:///t/a.json" (.obj [("a", .num 1)])
      (fun _ => some "X") "X" rfl rfl rfl rfl rfl
  · exact c2_amended.2.2.1 envT 0 (.url "file:///t/a.json")
      { validate := some (fun _ => some "X"), fallback := some (.url "file:///t/fb.json") } {}
      "file:///t/a.json" (.obj [("a", .num 1)]) (fun _ => some "X") "X"
      (.url "file:///t/fb.json") rfl rfl rfl rfl rfl rfl rfl
  · exact c2_amended.2.2.2 envT 0 (.url "file:///t/a.json")
      { validate := some (fun _ => some "X"), fallback := some (.url "file:///t/fb.json") } {}
      "file:///t/a.json" (.obj [("a", .num 1)]) (fun _ => some "X") "X"
      (.url "file:///t/fb.json") rfl rfl rfl rfl rfl

/-!
## C1 — ownership of returned values: registry aliasing vs fresh cells
-/

/-- Every registry entry points at a valid heap cell. -/
def RegBound (st : St) : Prop :=
  ∀ p ∈ st.reg, p.2 < st.heap.length

/-- A successful registry lookup comes from an entry of the registry. -/
theorem lookup_mem (l : List (String × Nat)) (a : String) (b : Nat)
    (h : l.lookup a = some b) : (a, b) ∈ l := by
  induction l with
  | nil => cases h
  | cons p rest ih =>
    obtain ⟨k, v⟩ := p
    cases hak : a == k with
    | true =>
      simp only [List.lookup, hak] at h
      cases h
      exact (eq_of_beq hak) ▸ List.mem_cons_self _ _
    | false =>
      simp only [List.lookup, hak] at h
      exact List.mem_cons_of_mem _ (ih h)

/-- Shape of a successful dynamic import: either the module was cached (the
state is untouched and the cell comes from the registry) or it was freshly
instantiated (one new cell, one new registry entry). -/
theorem importVia_shape (ok : Bool) (nj : String → String → Option Json) (env : Env)
    (href ty : String) (st : St) (i : Nat) (st₁ : St)
    (h : importVia ok nj env href ty st = some (i, st₁)) :
    (st₁ = st ∧ st.reg.lookup href = some i) ∨
    (∃ v, i = st.heap.length ∧ st₁ = ⟨st.heap ++ [v], (href, i) :: st.reg⟩) := by
  cases ok with
  | false => simp [importVia] at h
  | true =>
    simp only [importVia, if_true] at h
    cases hl : st.reg.lookup href with
    | some j =>
      simp only [hl] at h
      cases h
      exact Or.inl ⟨rfl, rfl⟩
    | none =>
      simp only [hl] at h
      cases hf : (if ty == "json" then env.files href else nj href ty) with
      | none =>
        simp only [hf] at h
        exact nomatch h
      | some v =>
        simp only [hf, allocCell] at h
        cases h
        exact Or.inr ⟨v, rfl, rfl⟩

/-- Any import tier preserves registry well-formedness and never shrinks
the heap. -/
theorem tierImport_mono (ok : Bool) (nj : String → String → Option Json) (env : Env)
    (href : String) (opts : Opts) (st : St) (r : Option Nat) (st' : St)
    (h : tierImport ok nj env href opts st = (r, st')) (hb : RegBound st) :
    st.heap.length ≤ st'.heap.length ∧ RegBound st' := by
  simp only [tierImport] at h
  cases hiv : importVia ok nj env href opts.type st with
  | none =>
    simp only [hiv] at h
    cases h
    exact ⟨le_refl _, hb⟩
  | some p =>
    obtain ⟨i, st₁⟩ := p
    have hb₁ : RegBound st₁ ∧ st.heap.length ≤ st₁.heap.length := by
      rcases importVia_shape ok nj env href opts.type st i st₁ hiv with ⟨he, _⟩ | ⟨v, hi, he⟩
      · subst he
        exact ⟨hb, le_refl _⟩
      · subst he
        constructor
        · intro p hp
          rcases List.mem_cons.mp hp with hp | hp
          · subst hp
            simp only [List.length_append, List.length_cons]
            omega
          · have := hb p hp
            simp only [List.length_append, List.length_cons]
            omega
        · simp
    simp only [hiv] at h
    cases hc1 : (opts.reviver.isNone && opts.validate.isNone) with
    | true =>
      simp only [hc1] at h
      cases hnull : (st₁.heap.getD i .null).isNull with
      | true =>
        simp only [hnull, if_true, allocCell] at h
        cases h
        refine ⟨by simp; omega, ?_⟩
        intro p hp
        have := hb₁.1 p hp
        simp only [List.length_append, List.length_cons]
        omega
      | false =>
        simp only [hnull, Bool.false_eq_true, if_false] at h
        cases h
        exact ⟨hb₁.2, hb₁.1⟩
    | false =>
      simp only [hc1] at h
      cases hnull : (st₁.heap.getD i .null).isNull with
      | true =>
        simp only [hnull, if_true] at h
        cases h
        exact ⟨hb₁.2, hb₁.1⟩
      | false =>
        simp only [hnull, Bool.false_eq_true, if_false, deepClone, allocCell] at h
        cases hval : opts.validate with
        | some f =>
          simp only [hval] at h
          cases hfw : f (reviveW opts (st₁.heap.getD i .null)) with
          | some X =>
            simp only [hfw] at h
            cases h
            exact ⟨hb₁.2, hb₁.1⟩
          | none =>
            simp only [hfw] at h
            cases hrev : opts.reviver.isSome with
            | true =>
              simp only [hrev, if_true] at h
              cases h
              constructor
              · simp only [List.length_append, List.length_cons]; omega
              · intro p hp
                have := hb₁.1 p hp
                simp only [List.length_append, List.length_cons]
                omega
            | false =>
              simp only [hrev, Bool.false_eq_true, if_false] at h
              cases h
              constructor
              · simp only [List.length_append, List.length_cons]; omega
              · intro p hp
                have := hb₁.1 p hp
                simp only [List.length_append, List.length_cons]
                omega
        | none =>
          simp only [hval] at h
          cases hrev : opts.reviver.isSome with
          | true =>
            simp only [hrev, if_true] at h
            cases h
            constructor
            · simp only [List.length_append, List.length_cons]; omega
            · intro p hp
              have := hb₁.1 p hp
              simp only [List.length_append, List.length_cons]
              omega
          | false =>
            simp only [hrev, Bool.false_eq_true, if_false] at h
            cases h
            constructor
            · simp only [List.length_append, List.length_cons]; omega
            · intro p hp
              have := hb₁.1 p hp
              simp only [List.length_append, List.length_cons]
              omega

/-- When a reviver or a validator is supplied, a *returning* import tier
hands back a freshly allocated cell: at least as high as every
pre-existing cell, in range of the final heap, and distinct from every
module-registry cell. -/
theorem tierImport_some_fresh (ok : Bool) (nj : String → String → Option Json) (env : Env)
    (href : String) (opts : Opts) (st : St) (k : Nat) (st' : St)
    (hopts : opts.reviver.isSome = true ∨ opts.validate.isSome = true)
    (h : tierImport ok nj env href opts st = (some k, st')) (hb : RegBound st) :
    st.heap.length ≤ k ∧ k < st'.heap.length ∧ ∀ p ∈ st'.reg, p.2 ≠ k := by
  have hc1 : (opts.reviver.isNone && opts.validate.isNone) = false := by
    rcases hopts with hx | hx
    · rcases Option.isSome_iff_exists.mp hx with ⟨x, hx'⟩
      simp [hx']
    · rcases Option.isSome_iff_exists.mp hx with ⟨x, hx'⟩
      simp [hx']
  simp only [tierImport] at h
  cases hiv : importVia ok nj env href opts.type st with
  | none =>
    simp only [hiv] at h
    exact nomatch h
  | some p =>
    obtain ⟨i, st₁⟩ := p
    have hb₁ : RegBound st₁ ∧ st.heap.length ≤ st₁.heap.length := by
      rcases importVia_shape ok nj env href opts.type st i st₁ hiv with ⟨he, _⟩ | ⟨v, hi, he⟩
      · subst he
        exact ⟨hb, le_refl _⟩
      · subst he
        constructor
        · intro p hp
          rcases List.mem_cons.mp hp with hp | hp
          · subst hp
            simp only [List.length_append, List.length_cons]
            omega
          · have := hb p hp
            simp only [List.length_append, List.length_cons]
            omega
        · simp
    simp only [hiv, hc1, Bool.false_eq_true, if_false] at h
    cases hnull : (st₁.heap.getD i .null).isNull with
    | true =>
      simp only [hnull, if_true] at h
      exact nomatch h
    | false =>
      simp only [hnull, Bool.false_eq_true, if_false, deepClone, allocCell] at h
      have main : ∀ (k' : Nat) (st₃ : St),
          (some k', st₃) = (some k, st') →
          st₁.heap.length ≤ k' → k' < st₃.heap.length → st₃.reg = st₁.reg →
          st.heap.length ≤ k ∧ k < st'.heap.length ∧ ∀ p ∈ st'.reg, p.2 ≠ k := by
        intro k' st₃ heq hk1 hk2 hreg
        cases heq
        refine ⟨le_trans hb₁.2 hk1, hk2, ?_⟩
        intro p hp
        rw [hreg] at hp
        have := hb₁.1 p hp
        omega
      cases hval : opts.validate with
      | some f =>
        simp only [hval] at h
        cases hfw : f (reviveW opts (st₁.heap.getD i .null)) with
        | some X =>
          simp only [hfw] at h
          exact nomatch h
        | none =>
          simp only [hfw] at h
          cases hrev : opts.reviver.isSome with
          | true =>
            simp only [hrev, if_true] at h
            exact main _ _ h (by simp) (by simp) rfl
          | false =>
            simp only [hrev, Bool.false_eq_true, if_false] at h
            exact main _ _ h (le_refl _) (by simp) rfl
      | none =>
        simp only [hval] at h
        cases hrev : opts.reviver.isSome with
        | true =>
          simp only [hrev, if_true] at h
          exact main _ _ h (by simp) (by simp) rfl
        | false =>
          simp only [hrev, Bool.false_eq_true, if_false] at h
          exact main _ _ h (le_refl _) (by simp) rfl

/-- A successful raw read always returns the freshly appended cell, holding
the (revived) parse of the file, with the registry untouched and the
validator (when supplied) accepting the value. -/
theorem tierRaw_ok_shape (env : Env) (href : String) (opts : Opts) (st : St) (j : Nat) (st' : St)
    (h : tierRaw env href opts st = .ok (j, st')) :
    j = st.heap.length ∧ ∃ v, env.files href = some v ∧
      st' = ⟨st.heap ++ [reviveW opts v], st.reg⟩ ∧
      (∀ f, opts.validate = some f → f (reviveW opts v) = none) := by
  simp only [tierRaw] at h
  cases hf : env.files href with
  | none =>
    simp only [hf] at h
    exact nomatch h
  | some v =>
    simp only [hf, deepClone, allocCell] at h
    cases hval : opts.validate with
    | some f =>
      simp only [hval] at h
      cases hfw : f (reviveW opts v) with
      | some X =>
        simp only [hfw] at h
        exact nomatch h
      | none =>
        simp only [hfw] at h
        cases h
        refine ⟨rfl, v, rfl, rfl, ?_⟩
        intro f' hf'
        cases hf'
        exact hfw
    | none =>
      simp only [hval] at h
      cases h
      refine ⟨rfl, v, rfl, rfl, ?_⟩
      intro f' hf'
      exact nomatch hf'

/-- C1 amended: whenever a reviver or a validator is supplied, the
asynchronous loader returns a freshly allocated cell — never a
module-registry cell (conjunct 1); the synchronous loader always does, and
never touches the registry (conjunct 2); consequently two successive
synchronous loads return distinct cells, and mutating the cell returned by
one load leaves the value seen through the other load unchanged (conjunct
3).  (Without a reviver or validator, an import-tier success returns the
registry's cached cell itself — see the counterexample.) -/
theorem c1_amended :
    (∀ (n : Nat) (env : Env) (input : Input) (opts : Opts) (st : St) (k : Nat) (st' : St),
      RegBound st → (opts.reviver.isSome = true ∨ opts.validate.isSome = true) →
      wisp env n input opts st = .ok (k, st') →
      st.heap.length ≤ k ∧ k < st'.heap.length ∧ RegBound st' ∧ ∀ p ∈ st'.reg, p.2 ≠ k) ∧
    (∀ (n : Nat) (env : Env) (input : Input) (opts : Opts) (st : St) (k : Nat) (st' : St),
      wispSync env n input opts st = .ok (k, st') →
      st.heap.length ≤ k ∧ k < st'.heap.length ∧ st'.reg = st.reg) ∧
    (∀ (n n' : Nat) (env env' : Env) (input input' : Input) (opts opts' : Opts) (st : St)
       (k₁ : Nat) (st₁ : St) (k₂ : Nat) (st₂ : St),
      wispSync env n input opts st = .ok (k₁, st₁) →
      wispSync env' n' input' opts' st₁ = .ok (k₂, st₂) →
      k₁ ≠ k₂ ∧ ∀ w : Json, (st₂.heap.set k₁ w).getD k₂ .null = st₂.heap.getD k₂ .null) := by
  have hsync : ∀ (n : Nat) (env : Env) (input : Input) (opts : Opts) (st : St) (k : Nat) (st' : St),
      wispSync env n input opts st = .ok (k, st') →
      st.heap.length ≤ k ∧ k < st'.heap.length ∧ st'.reg = st.reg := by
    intro n
    induction n with
    | zero => intro env input opts st k st' h; exact nomatch h
    | succ n ih =>
      intro env input opts st k st' h
      simp only [wispSync] at h
      cases hc : computeUrl env input opts with
      | error e => rw [hc] at h; exact nomatch h
      | ok href =>
        rw [hc] at h
        dsimp only at h
        cases traw : tierRaw env href opts st with
        | ok r =>
          obtain ⟨j, s3⟩ := r
          rw [traw] at h
          cases h
          obtain ⟨hj, v, _, hshape, _⟩ := tierRaw_ok_shape env href opts st k st' traw
          subst hj
          subst hshape
          simp
        | error msg =>
          rw [traw] at h
          cases hfb : opts.fallback with
          | some fb =>
            rw [hfb] at h
            exact ih env fb opts st k st' h
          | none =>
            rw [hfb] at h
            exact nomatch h
  have hasync : ∀ (n : Nat) (env : Env) (input : Input) (opts : Opts) (st : St) (k : Nat) (st' : St),
      RegBound st → (opts.reviver.isSome = true ∨ opts.validate.isSome = true) →
      wisp env n input opts st = .ok (k, st') →
      st.heap.length ≤ k ∧ k < st'.heap.length ∧ RegBound st' ∧ ∀ p ∈ st'.reg, p.2 ≠ k := by
    intro n
    induction n with
    | zero => intro env input opts st k st' hb hopts h; exact nomatch h
    | succ n ih =>
      intro env input opts st k st' hb hopts h
      simp only [wisp] at h
      cases hc : computeUrl env input opts with
      | error e => rw [hc] at h; exact nomatch h
      | ok href =>
        rw [hc] at h
        dsimp only at h
        cases ht1 : tierImport env.withOk env.withNonJson env href opts st with
        | mk r1 s1 =>
          rw [ht1] at h
          obtain ⟨hm1a, hm1b⟩ := tierImport_mono env.withOk env.withNonJson env href opts st
            r1 s1 ht1 hb
          cases r1 with
          | some i =>
            dsimp only at h
            cases h
            obtain ⟨ha, hb', hc'⟩ := tierImport_some_fresh env.withOk env.withNonJson env href
              opts st k st' hopts ht1 hb
            exact ⟨ha, hb', hm1b, hc'⟩
          | none =>
            dsimp only at h
            cases ht2 : tierImport env.assertOk env.assertNonJson env href opts s1 with
            | mk r2 s2 =>
              rw [ht2] at h
              obtain ⟨hm2a, hm2b⟩ := tierImport_mono env.assertOk env.assertNonJson env href opts
                s1 r2 s2 ht2 hm1b
              cases r2 with
              | some i =>
                dsimp only at h
                cases h
                obtain ⟨ha, hb', hc'⟩ := tierImport_some_fresh env.assertOk env.assertNonJson env
                  href opts s1 k st' hopts ht2 hm1b
                exact ⟨le_trans hm1a ha, hb', hm2b, hc'⟩
              | none =>
                dsimp only at h
                cases hty : (opts.type == "json") with
                | false =>
                  simp only [hty, Bool.false_eq_true, if_false] at h
                  exact nomatch h
                | true =>
                  simp only [hty, if_true] at h
                  cases traw : tierRaw env href opts s2 with
                  | ok r =>
                    obtain ⟨j, s3⟩ := r
                    rw [traw] at h
                    cases h
                    obtain ⟨hj, v, _, hshape, _⟩ := tierRaw_ok_shape env href opts s2 k st' traw
                    subst hj
                    subst hshape
                    refine ⟨by omega, by simp, ?_, ?_⟩
                    · intro p hp
                      have := hm2b p hp
                      simp only [List.length_append, List.length_cons]
                      omega
                    · intro p hp
                      have := hm2b p hp
                      omega
                  | error msg =>
                    rw [traw] at h
                    cases hfb : opts.fallback with
                    | some fb =>
                      rw [hfb] at h
                      obtain ⟨ha, hb', hc', hd'⟩ := ih env fb opts s2 k st' hm2b hopts h
                      exact ⟨by omega, hb', hc', hd'⟩
                    | none =>
                      rw [hfb] at h
                      exact nomatch h
  refine ⟨hasync, hsync, ?_⟩
  intro n n' env env' input input' opts opts' st k₁ st₁ k₂ st₂ h1 h2
  obtain ⟨_, hk1, _⟩ := hsync n env input opts st k₁ st₁ h1
  obtain ⟨hk2, _, _⟩ := hsync n' env' input' opts' st₁ k₂ st₂ h2
  have hne : k₁ ≠ k₂ := by omega
  exact ⟨hne, fun w => getD_set_ne st₂.heap k₁ k₂ hne w .null⟩

/-- C1 counterexample: with neither reviver nor validator supplied, two
independent asynchronous loads of the same reference both return the very
cell the module registry caches (`mod?.default ?? mod` is returned without
`deepClone`), so a mutation through one result is observed through the
other, and the loader returns a live reference into the module-registry
cache. -/
theorem c1_counterexample :
    (wisp envT 1 (.url "file:///t/a.json") {} {} =
      .ok (0, St.mk [Json.obj [("a", Json.num 1)]] [("file:///t/a.json", 0)])) ∧
    (wisp envT 1 (.url "file:///t/a.json") {}
        (St.mk [Json.obj [("a", Json.num 1)]] [("file:///t/a.json", 0)]) =
      .ok (0, St.mk [Json.obj [("a", Json.num 1)]] [("file:///t/a.json", 0)])) ∧
    (("file:///t/a.json", 0) ∈
      (St.mk [Json.obj [("a", Json.num 1)]] [("file:///t/a.json", 0)]).reg) ∧
    (∀ w : Json,
      ((St.mk [Json.obj [("a", Json.num 1)]] [("file:///t/a.json", 0)]).heap.set 0 w).getD
        0 .null = w) :=
  ⟨rfl, rfl, by simp, fun w => rfl⟩

/-- Witness for C1 (amended): a concrete asynchronous load with a validator
returns the fresh cell 1 (not the registry cell 0), and two successive
synchronous loads return the distinct cells 0 and 1 with
mutation-independence. -/
theorem c1_witness :
    ((St.mk [] []).heap.length ≤ 1 ∧
      1 < (St.mk [Json.obj [("a", Json.num 1)], Json.obj [("a", Json.num 1)]]
          [("file:///t/a.json", 0)]).heap.length ∧
      RegBound (St.mk [Json.obj [("a", Json.num 1)], Json.obj [("a", Json.num 1)]]
          [("file:///t/a.json", 0)]) ∧
      (∀ p ∈ (St.mk [Json.obj [("a", Json.num 1)], Json.obj [("a", Json.num 1)]]
          [("file:///t/a.json", 0)]).reg, p.2 ≠ 1)) ∧
    ((St.mk [] []).heap.length ≤ 0 ∧
      0 < (St.mk [Json.obj [("a", Json.num 1)]] []).heap.length ∧
      (St.mk [Json.obj [("a", Json.num 1)]] []).reg = (St.mk [] []).reg) ∧
    (0 ≠ 1 ∧ ∀ w : Json,
      ((St.mk [Json.obj [("a", Json.num 1)], Json.obj [("a", Json.num 1)]] []).heap.set 0
          w).getD 1 .null =
        (St.mk [Json.obj [("a", Json.num 1)], Json.obj [("a", Json.num 1)]] []).heap.getD
          1 .null) :=
  ⟨c1_amended.1 1 envT (.url "file:///t/a.json") { validate := some (fun _ => none) } {} 1
      (St.mk [Json.obj [("a", Json.num 1)], Json.obj [("a", Json.num 1)]]
        [("file:///t/a.json", 0)])
      (by simp [RegBound]) (Or.inr rfl) rfl,
   c1_amended.2.1 1 envT (.url "file:///t/a.json") {} {} 0
      (St.mk [Json.obj [("a", Json.num 1)]] []) rfl,
   c1_amended.2.2 1 1 envT envT (.url "file:///t/a.json") (.url "file:///t/a.json") {} {} {}
      0 (St.mk [Json.obj [("a", Json.num 1)]] [])
      1 (St.mk [Json.obj [("a", Json.num 1)], Json.obj [("a", Json.num 1)]] []) rfl rfl⟩

/-!
## C8 — synchronous/asynchronous agreement
-/

/-- The module registry is coherent with the file table: every cached cell
is valid and holds exactly the parse of its file. -/
def RegCoherent (env : Env) (st : St) : Prop :=
  ∀ p ∈ st.reg, p.2 < st.heap.length ∧ env.files p.1 = some (st.heap.getD p.2 .null)

/-- Coherence only concerns existing cells, so growing the heap preserves
it. -/
theorem RegCoherent_append (env : Env) (h : List Json) (reg : List (String × Nat))
    (ext : List Json) (hco : RegCoherent env ⟨h, reg⟩) :
    RegCoherent env ⟨h ++ ext, reg⟩ := by
  intro p hp
  obtain ⟨hb, hv⟩ := hco p hp
  have hb' : p.2 < h.length := hb
  have hv' : env.files p.1 = some (h.getD p.2 .null) := hv
  refine ⟨?_, ?_⟩
  · show p.2 < (h ++ ext).length
    simp only [List.length_append]
    omega
  · show env.files p.1 = some ((h ++ ext).getD p.2 .null)
    rw [getD_append_left h ext p.2 hb']
    exact hv'

/-- A non-null JSON value's null test is false. -/
theorem isNull_eq_false (v : Json) (h : v ≠ .null) : v.isNull = false := by
  cases v with
  | null => exact absurd rfl h
  | bool b => rfl
  | num n => rfl
  | str s => rfl
  | arr xs => rfl
  | obj kvs => rfl

/-- JSON-type import shape: a successful import is a cache hit or a fresh
instantiation of the file's parse. -/
theorem importVia_json_shape (ok : Bool) (nj : String → String → Option Json) (env : Env)
    (href : String) (st : St) (i : Nat) (st₁ : St)
    (h : importVia ok nj env href "json" st = some (i, st₁)) :
    (st₁ = st ∧ st.reg.lookup href = some i) ∨
    (∃ v, env.files href = some v ∧ i = st.heap.length ∧
      st₁ = ⟨st.heap ++ [v], (href, i) :: st.reg⟩) := by
  cases ok with
  | false => simp [importVia] at h
  | true =>
    simp only [importVia, if_true] at h
    cases hl : st.reg.lookup href with
    | some j =>
      simp only [hl] at h
      cases h
      exact Or.inl ⟨rfl, rfl⟩
    | none =>
      simp only [hl] at h
      cases hf : env.files href with
      | none =>
        simp only [hf] at h
        simp at h
      | some v =>
        simp only [hf, allocCell] at h
        simp only [show ((("json" : String) == "json") = true) from rfl, if_true] at h
        cases h
        exact Or.inr ⟨v, rfl, rfl, rfl⟩

/-- A successful JSON import yields a cell holding the file's parse, and
preserves registry coherence. -/
theorem importVia_json_val (ok : Bool) (nj : String → String → Option Json) (env : Env)
    (href : String) (st : St) (i : Nat) (st₁ : St)
    (h : importVia ok nj env href "json" st = some (i, st₁)) (hco : RegCoherent env st) :
    env.files href = some (st₁.heap.getD i .null) ∧ RegCoherent env st₁ ∧
    st.heap.length ≤ st₁.heap.length := by
  rcases importVia_json_shape ok nj env href st i st₁ h with ⟨he, hl⟩ | ⟨v, hf, hi, he⟩
  · subst he
    have := hco (href, i) (lookup_mem st₁.reg href i hl)
    exact ⟨this.2, hco, le_refl _⟩
  · subst he
    subst hi
    refine ⟨by rw [getD_append_self]; exact hf, ?_, by simp⟩
    intro p hp
    rcases List.mem_cons.mp hp with hp | hp
    · subst hp
      exact ⟨by simp, by rw [getD_append_self]; exact hf⟩
    · obtain ⟨hb, hv⟩ := hco p hp
      refine ⟨by simp only [List.length_append, List.length_cons]; omega, ?_⟩
      rw [getD_append_left st.heap [v] p.2 hb]
      exact hv

/-- Coherence is preserved when the heap grows at the top. -/
theorem RegCoherent_grow (env : Env) (st : St) (ext : List Json)
    (hco : RegCoherent env st) : RegCoherent env ⟨st.heap ++ ext, st.reg⟩ := by
  intro p hp
  obtain ⟨hb, hv⟩ := hco p hp
  refine ⟨?_, ?_⟩
  · show p.2 < (st.heap ++ ext).length
    simp only [List.length_append]
    omega
  · show env.files p.1 = some ((st.heap ++ ext).getD p.2 .null)
    rw [getD_append_left st.heap ext p.2 hb]
    exact hv

/-- Full characterisation of an import tier for the JSON type: registry
coherence is preserved in every outcome, and a *returning* tier hands back
the file's parse — directly or as the namespace object for a null default
when no options are supplied, revived and validator-approved otherwise. -/
theorem tierImport_json (ok : Bool) (nj : String → String → Option Json) (env : Env)
    (href : String) (opts : Opts) (st : St) (r : Option Nat) (st' : St)
    (hty : opts.type = "json") (hco : RegCoherent env st)
    (h : tierImport ok nj env href opts st = (r, st')) :
    RegCoherent env st' ∧
    (∀ k, r = some k →
      ∃ v, env.files href = some v ∧
        (((opts.reviver.isNone && opts.validate.isNone) = true ∧
           ((v.isNull = true ∧ st'.heap.getD k .null = nsObj v) ∨
            (v.isNull = false ∧ st'.heap.getD k .null = v))) ∨
         ((opts.reviver.isNone && opts.validate.isNone) = false ∧ v.isNull = false ∧
           st'.heap.getD k .null = reviveW opts v ∧
           (∀ f, opts.validate = some f → f (reviveW opts v) = none)))) := by
  simp only [tierImport, hty] at h
  cases hiv : importVia ok nj env href "json" st with
  | none =>
    simp only [hiv] at h
    cases h
    exact ⟨hco, fun k hk => nomatch hk⟩
  | some p =>
    obtain ⟨i, st₁⟩ := p
    obtain ⟨hfv, hco₁, hlen₁⟩ := importVia_json_val ok nj env href st i st₁ hiv hco
    simp only [hiv] at h
    cases hc1 : (opts.reviver.isNone && opts.validate.isNone) with
    | true =>
      simp only [hc1, if_true] at h
      cases hnull : (st₁.heap.getD i .null).isNull with
      | true =>
        simp only [hnull, if_true, allocCell] at h
        cases h
        refine ⟨RegCoherent_grow env st₁ _ hco₁, ?_⟩
        intro k hk
        cases hk
        refine ⟨st₁.heap.getD i .null, hfv, Or.inl ⟨rfl, Or.inl ⟨hnull, ?_⟩⟩⟩
        exact getD_append_self st₁.heap _ .null
      | false =>
        simp only [hnull, Bool.false_eq_true, if_false] at h
        cases h
        refine ⟨hco₁, ?_⟩
        intro k hk
        cases hk
        exact ⟨_, hfv, Or.inl ⟨rfl, Or.inr ⟨hnull, rfl⟩⟩⟩
    | false =>
      simp only [hc1, Bool.false_eq_true, if_false] at h
      cases hnull : (st₁.heap.getD i .null).isNull with
      | true =>
        simp only [hnull, if_true] at h
        cases h
        exact ⟨hco₁, fun k hk => nomatch hk⟩
      | false =>
        simp only [hnull, Bool.false_eq_true, if_false, deepClone, allocCell] at h
        cases hval : opts.validate with
        | some f =>
          simp only [hval] at h
          cases hfw : f (reviveW opts (st₁.heap.getD i .null)) with
          | some X =>
            simp only [hfw] at h
            cases h
            exact ⟨hco₁, fun k hk => nomatch hk⟩
          | none =>
            simp only [hfw] at h
            cases hrev : opts.reviver.isSome with
            | true =>
              simp only [hrev, if_true] at h
              cases h
              refine ⟨RegCoherent_grow env ⟨st₁.heap ++ [st₁.heap.getD i .null], st₁.reg⟩ _
                (RegCoherent_grow env st₁ _ hco₁), ?_⟩
              intro k hk
              cases hk
              refine ⟨st₁.heap.getD i .null, hfv, Or.inr ⟨rfl, hnull, ?_, ?_⟩⟩
              · exact getD_append_self (st₁.heap ++ [st₁.heap.getD i .null])
                  (reviveW opts (st₁.heap.getD i .null)) .null
              · intro f' hf'
                cases hf'
                exact hfw
            | false =>
              have hrn : opts.reviver = none := by
                cases hr : opts.reviver with
                | none => rfl
                | some rr => rw [hr] at hrev; exact nomatch hrev
              simp only [hrev, Bool.false_eq_true, if_false] at h
              cases h
              refine ⟨RegCoherent_grow env st₁ _ hco₁, ?_⟩
              intro k hk
              cases hk
              refine ⟨st₁.heap.getD i .null, hfv, Or.inr ⟨rfl, hnull, ?_, ?_⟩⟩
              · have hw : reviveW opts (st₁.heap.getD i .null) = st₁.heap.getD i .null := by
                  simp [reviveW, hrn]
                rw [hw]
                exact getD_append_self st₁.heap (st₁.heap.getD i .null) .null
              · intro f' hf'
                cases hf'
                exact hfw
        | none =>
          simp only [hval] at h
          cases hrev : opts.reviver.isSome with
          | true =>
            simp only [hrev, if_true] at h
            cases h
            refine ⟨RegCoherent_grow env ⟨st₁.heap ++ [st₁.heap.getD i .null], st₁.reg⟩ _
              (RegCoherent_grow env st₁ _ hco₁), ?_⟩
            intro k hk
            cases hk
            refine ⟨st₁.heap.getD i .null, hfv, Or.inr ⟨rfl, hnull, ?_, ?_⟩⟩
            · exact getD_append_self (st₁.heap ++ [st₁.heap.getD i .null])
                (reviveW opts (st₁.heap.getD i .null)) .null
            · intro f' hf'
              exact nomatch hf'
          | false =>
            have hrn : opts.reviver = none := by
              cases hr : opts.reviver with
              | none => rfl
              | some rr => rw [hr] at hrev; exact nomatch hrev
            simp only [hrev, Bool.false_eq_true, if_false] at h
            cases h
            refine ⟨RegCoherent_grow env st₁ _ hco₁, ?_⟩
            intro k hk
            cases hk
            refine ⟨st₁.heap.getD i .null, hfv, Or.inr ⟨rfl, hnull, ?_, ?_⟩⟩
            · have hw : reviveW opts (st₁.heap.getD i .null) = st₁.heap.getD i .null := by
                simp [reviveW, hrn]
              rw [hw]
              exact getD_append_self st₁.heap (st₁.heap.getD i .null) .null
            · intro f' hf'
              exact nomatch hf'

/-- Constructive raw read: if the file parses and the validator (when
supplied) accepts the revived value, the raw tier returns the fresh cell
with that value, from any state. -/
theorem tierRaw_ok_of (env : Env) (href : String) (opts : Opts) (st : St) (v : Json)
    (hf : env.files href = some v)
    (hval : ∀ f, opts.validate = some f → f (reviveW opts v) = none) :
    tierRaw env href opts st = .ok (st.heap.length, ⟨st.heap ++ [reviveW opts v], st.reg⟩) := by
  simp only [tierRaw, hf, deepClone, allocCell]
  cases hvo : opts.validate with
  | none => rfl
  | some f => simp [hval f hvo]

/-- The raw tier's failure outcome (and message) is independent of the
state it runs from. -/
theorem tierRaw_error_congr (env : Env) (href : String) (opts : Opts) (st st' : St)
    (msg : String) (h : tierRaw env href opts st = .error msg) :
    tierRaw env href opts st' = .error msg := by
  simp only [tierRaw, deepClone, allocCell] at h ⊢
  cases hf : env.files href with
  | none =>
    simp only [hf] at h ⊢
    exact h
  | some v =>
    simp only [hf] at h ⊢
    cases hvo : opts.validate with
    | none =>
      simp only [hvo] at h
      exact nomatch h
    | some f =>
      simp only [hvo] at h ⊢
      cases hfw : f (reviveW opts v) with
      | none =>
        simp only [hfw] at h
        exact nomatch h
      | some X =>
        simp only [hfw] at h ⊢
        exact h

/-- A value whose null test is true is JSON null. -/
theorem isNull_true_eq (v : Json) (h : v.isNull = true) : v = .null := by
  cases v with
  | null => rfl
  | bool b => exact nomatch h
  | num n => exact nomatch h
  | str s => exact nomatch h
  | arr xs => exact nomatch h
  | obj kvs => exact nomatch h

/-- C8 amended: with the default JSON type, a coherent registry, and
either some option supplied or no file parsing to top-level null, any run
in which both loaders succeed yields deep-equal (here: equal) document
values.  (With neither option supplied and a null top-level document, the
asynchronous loader returns the module namespace object instead — see the
counterexample; with a non-default type the synchronous loader reads raw
JSON while the asynchronous one consults the module system, so agreement is
also not guaranteed there, cf. the C3 analysis.) -/
theorem c8_amended :
    ∀ (n : Nat) (env : Env) (input : Input) (opts : Opts) (st stS : St) (kA : Nat) (stA : St)
      (kS : Nat) (stS' : St),
      opts.type = "json" →
      RegCoherent env st →
      (opts.reviver.isSome = true ∨ opts.validate.isSome = true ∨
        ∀ u, env.files u ≠ some .null) →
      wisp env n input opts st = .ok (kA, stA) →
      wispSync env n input opts stS = .ok (kS, stS') →
      stA.heap.getD kA .null = stS'.heap.getD kS .null := by
  intro n
  induction n with
  | zero =>
    intro env input opts st stS kA stA kS stS' _ _ _ hA hS
    exact nomatch hA
  | succ n ih =>
    intro env input opts st stS kA stA kS stS' hty hco hopt hA hS
    simp only [wisp] at hA
    simp only [wispSync] at hS
    cases hc : computeUrl env input opts with
    | error e =>
      rw [hc] at hA
      exact nomatch hA
    | ok href =>
      rw [hc] at hA
      rw [hc] at hS
      dsimp only at hA
      dsimp only at hS
      have syncval : ∀ v : Json, env.files href = some v →
          (∀ f, opts.validate = some f → f (reviveW opts v) = none) →
          stS'.heap.getD kS .null = reviveW opts v := by
        intro v hfv hval
        rw [tierRaw_ok_of env href opts stS v hfv hval] at hS
        dsimp only at hS
        cases hS
        exact getD_append_self stS.heap (reviveW opts v) .null
      have noopts : (opts.reviver.isNone && opts.validate.isNone) = true →
          opts.validate = none ∧ opts.reviver = none ∧
            ∀ u, env.files u ≠ some Json.null := by
        intro hc1
        obtain ⟨hrN, hvN⟩ := (Bool.and_eq_true _ _).mp hc1
        have hrn : opts.reviver = none := Option.isNone_iff_eq_none.mp hrN
        have hvn : opts.validate = none := Option.isNone_iff_eq_none.mp hvN
        rcases hopt with hx | hx | hx
        · rw [hrn] at hx
          exact nomatch hx
        · rw [hvn] at hx
          exact nomatch hx
        · exact ⟨hvn, hrn, hx⟩
      cases ht1 : tierImport env.withOk env.withNonJson env href opts st with
      | mk r1 s1 =>
        rw [ht1] at hA
        obtain ⟨hco1, hval1⟩ :=
          tierImport_json env.withOk env.withNonJson env href opts st r1 s1 hty hco ht1
        cases r1 with
        | some i =>
          dsimp only at hA
          cases hA
          obtain ⟨v, hfv, hcases⟩ := hval1 kA rfl
          rcases hcases with ⟨hc1, hdisj⟩ | ⟨hc1, hnull, hvalu, hvok⟩
          · obtain ⟨hvn, hrn, hnn⟩ := noopts hc1
            rcases hdisj with ⟨hnt, _⟩ | ⟨hnf, hvalu⟩
            · exact absurd ((isNull_true_eq v hnt) ▸ hfv) (hnn href)
            · have hval' : ∀ f, opts.validate = some f → f (reviveW opts v) = none := by
                intro f hf
                rw [hvn] at hf
                exact nomatch hf
              rw [hvalu, syncval v hfv hval']
              simp [reviveW, hrn]
          · rw [hvalu, syncval v hfv hvok]
        | none =>
          dsimp only at hA
          cases ht2 : tierImport env.assertOk env.assertNonJson env href opts s1 with
          | mk r2 s2 =>
            rw [ht2] at hA
            obtain ⟨hco2, hval2⟩ :=
              tierImport_json env.assertOk env.assertNonJson env href opts s1 r2 s2 hty hco1 ht2
            cases r2 with
            | some i =>
              dsimp only at hA
              cases hA
              obtain ⟨v, hfv, hcases⟩ := hval2 kA rfl
              rcases hcases with ⟨hc1, hdisj⟩ | ⟨hc1, hnull, hvalu, hvok⟩
              · obtain ⟨hvn, hrn, hnn⟩ := noopts hc1
                rcases hdisj with ⟨hnt, _⟩ | ⟨hnf, hvalu⟩
                · exact absurd ((isNull_true_eq v hnt) ▸ hfv) (hnn href)
                · have hval' : ∀ f, opts.validate = some f → f (reviveW opts v) = none := by
                    intro f hf
                    rw [hvn] at hf
                    exact nomatch hf
                  rw [hvalu, syncval v hfv hval']
                  simp [reviveW, hrn]
              · rw [hvalu, syncval v hfv hvok]
            | none =>
              dsimp only at hA
              simp only [hty, beq_self_eq_true, if_true] at hA
              cases traw : tierRaw env href opts s2 with
              | ok rr =>
                obtain ⟨j, s3⟩ := rr
                rw [traw] at hA
                dsimp only at hA
                cases hA
                obtain ⟨hj, v, hfv, hshape, hvok⟩ := tierRaw_ok_shape env href opts s2 kA stA traw
                rw [syncval v hfv hvok]
                subst hshape
                subst hj
                exact getD_append_self s2.heap (reviveW opts v) .null
              | error msg =>
                rw [traw] at hA
                dsimp only at hA
                cases hfb : opts.fallback with
                | some fb =>
                  rw [hfb] at hA
                  rw [tierRaw_error_congr env href opts s2 stS msg traw] at hS
                  dsimp only at hS
                  rw [hfb] at hS
                  exact ih env fb opts s2 stS kA stA kS stS' hty hco2 hopt hA hS
                | none =>
                  rw [hfb] at hA
                  exact nomatch hA

/-- C8 counterexample: on a document whose top-level value is JSON null and
with no options, both loaders succeed but disagree — the asynchronous
loader's `mod?.default ?? mod` falls back to the module namespace object
while the synchronous loader returns null. -/
theorem c8_counterexample :
    (wisp envT 1 (.url "file:///t/n.json") {} {} =
      .ok (1, St.mk [Json.null, Json.obj [("default", Json.null)]]
        [("file:///t/n.json", 0)])) ∧
    (wispSync envT 1 (.url "file:///t/n.json") {} {} = .ok (0, St.mk [Json.null] [])) ∧
    ((St.mk [Json.null, Json.obj [("default", Json.null)]]
        [("file:///t/n.json", 0)]).heap.getD 1 .null = Json.obj [("default", Json.null)]) ∧
    ((St.mk [Json.null] []).heap.getD 0 .null = Json.null) ∧
    (Json.obj [("default", Json.null)] ≠ Json.null) :=
  ⟨rfl, rfl, rfl, rfl, fun h => Json.noConfusion h⟩

/-- Witness for C8 (amended): with a validator supplied, a concrete run of
both loaders on the same document produces equal values. -/
theorem c8_witness :
    (St.mk [Json.obj [("a", Json.num 1)], Json.obj [("a", Json.num 1)]]
        [("file:///t/a.json", 0)]).heap.getD 1 .null =
      (St.mk [Json.obj [("a", Json.num 1)]] []).heap.getD 0 .null :=
  c8_amended 1 envT (.url "file:///t/a.json") { validate := some (fun _ => none) } {} {}
    1 (St.mk [Json.obj [("a", Json.num 1)], Json.obj [("a", Json.num 1)]]
      [("file:///t/a.json", 0)])
    0 (St.mk [Json.obj [("a", Json.num 1)]] [])
    rfl (by simp [RegCoherent]) (Or.inr (Or.inl rfl)) rfl rfl
